import Mathlib

/-!
# OpenEngine resource manager: a shallow embedding

The static members of `OpenEngine::Resources::ResourceManager`
(`src/Resources/ResourceManager.cpp`) become the fields of one record that is
threaded through every member function.  Everything the manager talks to but
does not own lives in a second record, the `World`:

* the file system, seen only through `fs::exists`;
* the private state of the loader plug-ins (`CreateResource` is virtual and may
  allocate, count, fail, ...);
* a chronological log of the observable calls the manager makes: every
  `fs::exists` probe, every virtual plug-in call and every `logger.warning`
  record.

Modelling decisions
* `std::map<string, T>` is an association list kept in key order; `find` and
  `operator[]=` are `Map.find` and `Map.insert`.
* `boost::shared_ptr<T>` is the identity of its pointee, a natural number.
* A C++ exception is an `Except.error` result; the state returned next to it is
  the state at the throw.
* `File::Extension` and `Convert::ToLower` are not among the sources and are
  taken as parameters (`Helpers`).
* Plug-ins do not call back into the manager, and `fs::exists` does not throw.
-/

namespace OpenEngine
namespace Resources

/-! ## Basic data -/

/-- A resource smart pointer, identified by its pointee. -/
abbrev Handle := Nat

/-- The three cached resource kinds. -/
inductive Kind where
  | Texture
  | Model
  | Shader
  deriving DecidableEq, Repr

/-- What a call may throw: the manager's own `ResourceException`, or whatever a
plug-in throws from `CreateResource`. -/
inductive Exception where
  | ResourceException (what : String)
  | PluginException (what : String)
  deriving DecidableEq, Repr

deriving instance DecidableEq for Except

/-- Observable calls made by the manager, in the order they happen. -/
inductive Event where
  | Exists (p : String)
  | AcceptsExtension (k : Kind) (slot : Nat) (ext : String)
  | CreateResource (k : Kind) (slot : Nat) (fullname : String)
  | CreateScriptResource (slot : Nat)
  | Warning (msg : String)
  deriving DecidableEq, Repr

/-- `std::map<string, V>`: association list in key order. -/
abbrev Map (V : Type) := List (String × V)

/-- `m.find(key)`: the mapped value, or `none` for `m.end()`. -/
def Map.find {V : Type} (key : String) : Map V → Option V
  | [] => none
  | (k, v) :: rest => if k = key then some v else Map.find key rest

/-- `m[key] = val`: overwrite the entry of `key` or add one at its place in key order. -/
def Map.insert {V : Type} (key : String) (val : V) : Map V → Map V
  | [] => [(key, val)]
  | (k, v) :: rest =>
    if k = key then (key, val) :: rest
    else if key.data < k.data then (key, val) :: (k, v) :: rest
    else (k, v) :: Map.insert key val rest

/-- Modelled from the spec: `ITextureResourcePlugin`, `IModelResourcePlugin` and
`IShaderResourcePlugin` (their headers are not among the sources).  A loader
plug-in has a capability predicate on extensions and a construction operation
taking the resolved path; construction runs on the plug-in side of the world
and either returns a handle or throws. -/
structure IResourcePlugin (σ : Type) where
  AcceptsExtension : String → Bool
  CreateResource : String → σ → Except Exception Handle × σ

abbrev ITextureResourcePlugin (σ : Type) := IResourcePlugin σ
abbrev IModelResourcePlugin (σ : Type) := IResourcePlugin σ
abbrev IShaderResourcePlugin (σ : Type) := IResourcePlugin σ

/-- The loop shared by `IScriptResourcePlugin::RunsLanguage` and
`IScriptModule::RunsLanguage`. -/
def runsLanguageLoop (lang : String) : List String → Bool
  | [] => false
  | l :: rest => if l = lang then true else runsLanguageLoop lang rest

/-- `IScriptResourcePlugin`: a private language list and the pure virtual,
parameterless `CreateResource`. -/
structure IScriptResourcePlugin (σ : Type) where
  languages : List String
  CreateResource : σ → Except Exception Handle × σ

/-- `IScriptResourcePlugin::AddLanguage`. -/
def IScriptResourcePlugin.AddLanguage {σ : Type} (p : IScriptResourcePlugin σ) (lang : String) :
    IScriptResourcePlugin σ :=
  { p with languages := p.languages ++ [lang] }

/-- `IScriptResourcePlugin::RunsLanguage`. -/
def IScriptResourcePlugin.RunsLanguage {σ : Type} (p : IScriptResourcePlugin σ) (lang : String) :
    Bool :=
  runsLanguageLoop lang p.languages

/-- `IScriptModule`: a private language list; `addr` is the object's identity
(`Init` is never called by the manager). -/
structure IScriptModule where
  addr : Nat
  languages : List String
  deriving DecidableEq, Repr

/-- `IScriptModule::AddLanguage`. -/
def IScriptModule.AddLanguage (m : IScriptModule) (lang : String) : IScriptModule :=
  { m with languages := m.languages ++ [lang] }

/-- `IScriptModule::RunsLanguage`. -/
def IScriptModule.RunsLanguage (m : IScriptModule) (lang : String) : Bool :=
  runsLanguageLoop lang m.languages

/-- `File::Extension` and `Convert::ToLower`, used by the manager but defined
outside the sources. -/
structure Helpers where
  Extension : String → String
  ToLower : String → String

/-- Everything outside the manager. -/
structure World (σ : Type) where
  files : String → Bool
  pluginState : σ
  log : List Event

/-- The static members of `ResourceManager`. -/
structure ResourceManager (σ : Type) where
  paths : List String
  pathcache : Map String
  textures : Map Handle
  texturePlugins : List (ITextureResourcePlugin σ)
  models : Map Handle
  modelPlugins : List (IModelResourcePlugin σ)
  shaders : Map Handle
  shaderPlugins : List (IShaderResourcePlugin σ)
  scriptPlugins : List (IScriptResourcePlugin σ)
  scriptModules : List IScriptModule

/-- The static initialisers: every member empty. -/
def ResourceManager.init (σ : Type) : ResourceManager σ :=
  ⟨[], [], [], [], [], [], [], [], [], []⟩

/-- What a member function leaves behind: its return value, the members and
the world. -/
structure Ret (σ : Type) (α : Type) where
  value : α
  rm : ResourceManager σ
  world : World σ

/-- Append records to the log. -/
def World.emit {σ : Type} (w : World σ) (es : List Event) : World σ :=
  { w with log := w.log ++ es }

/-! ## Search path -/

/-- `ResourceManager::AppendPath`. -/
def AppendPath {σ : Type} (str : String) (rm : ResourceManager σ) : ResourceManager σ :=
  { rm with paths := rm.paths ++ [str] }

/-- `ResourceManager::PrependPath`. -/
def PrependPath {σ : Type} (str : String) (rm : ResourceManager σ) : ResourceManager σ :=
  { rm with paths := str :: rm.paths }

/-- The loop of `ResourceManager::IsInPath`. -/
def isInPathLoop (p : String) : List String → Bool
  | [] => false
  | d :: rest => if d = p then true else isInPathLoop p rest

/-- `ResourceManager::IsInPath`. -/
def IsInPath {σ : Type} (p : String) (rm : ResourceManager σ) : Bool :=
  isInPathLoop p rm.paths

/-- The probing loop of `FindFileInPath`: the list `possibles`. -/
def collectPossibles (fsExists : String → Bool) (file : String) : List String → List String
  | [] => []
  | d :: rest =>
    if fsExists (d ++ file) then (d ++ file) :: collectPossibles fsExists file rest
    else collectPossibles fsExists file rest

/-- The `fs::exists` calls the probing loop makes, one per search directory. -/
def probeEvents (file : String) : List String → List Event
  | [] => []
  | d :: rest => Event.Exists (d ++ file) :: probeEvents file rest

/-- The warning records written when more than one candidate exists. -/
def ambiguityWarnings (file : String) (possibles : List String) : List Event :=
  Event.Warning ("Found more then one file matching the name given: " ++ file)
    :: possibles.map Event.Warning

/-- `ResourceManager::FindFileInPath`. -/
def FindFileInPath {σ : Type} (file : String) (rm : ResourceManager σ) (w : World σ) :
    Ret σ String :=
  match Map.find file rm.pathcache with
  | some full => ⟨full, rm, w⟩
  | none =>
    let w1 := w.emit (probeEvents file rm.paths)
    match collectPossibles w.files file rm.paths with
    | [] => ⟨"", rm, w1⟩
    | [p] => ⟨p, { rm with pathcache := Map.insert file p rm.pathcache }, w1⟩
    | s :: q :: more =>
      ⟨s, { rm with pathcache := Map.insert file s rm.pathcache },
        w1.emit (ambiguityWarnings file (s :: q :: more))⟩

/-! ## Plug-in registration -/

/-- `ResourceManager::AddTexturePlugin`. -/
def AddTexturePlugin {σ : Type} (plugin : ITextureResourcePlugin σ) (rm : ResourceManager σ) :
    ResourceManager σ :=
  { rm with texturePlugins := rm.texturePlugins ++ [plugin] }

/-- `ResourceManager::AddModelPlugin`. -/
def AddModelPlugin {σ : Type} (plugin : IModelResourcePlugin σ) (rm : ResourceManager σ) :
    ResourceManager σ :=
  { rm with modelPlugins := rm.modelPlugins ++ [plugin] }

/-- `ResourceManager::AddShaderPlugin`. -/
def AddShaderPlugin {σ : Type} (plugin : IShaderResourcePlugin σ) (rm : ResourceManager σ) :
    ResourceManager σ :=
  { rm with shaderPlugins := rm.shaderPlugins ++ [plugin] }

/-- `ResourceManager::AddScriptPlugin`. -/
def AddScriptPlugin {σ : Type} (plugin : IScriptResourcePlugin σ) (rm : ResourceManager σ) :
    ResourceManager σ :=
  { rm with scriptPlugins := rm.scriptPlugins ++ [plugin] }

/-- `ResourceManager::AddScriptModule`. -/
def AddScriptModule {σ : Type} (module : IScriptModule) (rm : ResourceManager σ) :
    ResourceManager σ :=
  { rm with scriptModules := rm.scriptModules ++ [module] }

/-! ## Resource creation -/

/-- The plug-in scan of `CreateTexture`, `CreateModel` and `CreateShader`: walk
the list from slot `i`, stop at the first plug-in accepting `ext`.  Returns the
iterator position (`none` for `end()`) and the virtual calls made. -/
def scanPlugins {σ : Type} (k : Kind) (ext : String) :
    List (IResourcePlugin σ) → Nat → Option (Nat × IResourcePlugin σ) × List Event
  | [], _ => (none, [])
  | p :: rest, i =>
    if p.AcceptsExtension ext then (some (i, p), [Event.AcceptsExtension k i ext])
    else
      ((scanPlugins k ext rest (i + 1)).1,
        Event.AcceptsExtension k i ext :: (scanPlugins k ext rest (i + 1)).2)

/-- `ResourceManager::CreateTexture`. -/
def CreateTexture {σ : Type} (u : Helpers) (filename : String) (rm : ResourceManager σ)
    (w : World σ) : Ret σ (Except Exception Handle) :=
  match Map.find filename rm.textures with
  | some tex => ⟨Except.ok tex, rm, w⟩
  | none =>
    let ext := u.ToLower (u.Extension filename)
    let scan := scanPlugins Kind.Texture ext rm.texturePlugins 0
    let w1 := w.emit scan.2
    match scan.1 with
    | some (i, plugin) =>
      let r := FindFileInPath filename rm w1
      let c := plugin.CreateResource r.value r.world.pluginState
      let w2 : World σ :=
        { (r.world.emit [Event.CreateResource Kind.Texture i r.value]) with pluginState := c.2 }
      match c.1 with
      | Except.ok texture =>
        ⟨Except.ok texture,
          { r.rm with textures := Map.insert filename texture r.rm.textures }, w2⟩
      | Except.error e => ⟨Except.error e, r.rm, w2⟩
    | none =>
      ⟨Except.error (Exception.ResourceException ("Unsupported file format: " ++ filename)),
        rm, w1.emit [Event.Warning ("Plugin for ." ++ ext ++ " not found.")]⟩

/-- `ResourceManager::CreateModel`. -/
def CreateModel {σ : Type} (u : Helpers) (filename : String) (rm : ResourceManager σ)
    (w : World σ) : Ret σ (Except Exception Handle) :=
  match Map.find filename rm.models with
  | some res => ⟨Except.ok res, rm, w⟩
  | none =>
    let ext := u.ToLower (u.Extension filename)
    let scan := scanPlugins Kind.Model ext rm.modelPlugins 0
    let w1 := w.emit scan.2
    match scan.1 with
    | some (i, plugin) =>
      let r := FindFileInPath filename rm w1
      let c := plugin.CreateResource r.value r.world.pluginState
      let w2 : World σ :=
        { (r.world.emit [Event.CreateResource Kind.Model i r.value]) with pluginState := c.2 }
      match c.1 with
      | Except.ok model =>
        ⟨Except.ok model, { r.rm with models := Map.insert filename model r.rm.models }, w2⟩
      | Except.error e => ⟨Except.error e, r.rm, w2⟩
    | none =>
      ⟨Except.error (Exception.ResourceException ("Unsupported file format: " ++ filename)),
        rm, w1.emit [Event.Warning ("Plugin for ." ++ ext ++ " not found.")]⟩

/-- `ResourceManager::CreateShader`. -/
def CreateShader {σ : Type} (u : Helpers) (filename : String) (rm : ResourceManager σ)
    (w : World σ) : Ret σ (Except Exception Handle) :=
  match Map.find filename rm.shaders with
  | some res => ⟨Except.ok res, rm, w⟩
  | none =>
    let ext := u.ToLower (u.Extension filename)
    let scan := scanPlugins Kind.Shader ext rm.shaderPlugins 0
    let w1 := w.emit scan.2
    match scan.1 with
    | some (i, plugin) =>
      let r := FindFileInPath filename rm w1
      let c := plugin.CreateResource r.value r.world.pluginState
      let w2 : World σ :=
        { (r.world.emit [Event.CreateResource Kind.Shader i r.value]) with pluginState := c.2 }
      match c.1 with
      | Except.ok shader =>
        ⟨Except.ok shader, { r.rm with shaders := Map.insert filename shader r.rm.shaders }, w2⟩
      | Except.error e => ⟨Except.error e, r.rm, w2⟩
    | none =>
      ⟨Except.error (Exception.ResourceException ("Unsupported shader format: " ++ filename)),
        rm, w1.emit [Event.Warning ("Plugin for ." ++ ext ++ " not found.")]⟩

/-- The plug-in scan of `CreateScript`: the first slot, from `i` on, whose
plug-in runs `language`. -/
def scanScriptPlugins {σ : Type} (language : String) :
    List (IScriptResourcePlugin σ) → Nat → Option (Nat × IScriptResourcePlugin σ)
  | [], _ => none
  | p :: rest, i =>
    if p.RunsLanguage language then some (i, p) else scanScriptPlugins language rest (i + 1)

/-- `ResourceManager::CreateScript`. -/
def CreateScript {σ : Type} (language : String) (rm : ResourceManager σ) (w : World σ) :
    Ret σ (Except Exception Handle) :=
  match scanScriptPlugins language rm.scriptPlugins 0 with
  | some (i, plugin) =>
    let c := plugin.CreateResource w.pluginState
    ⟨c.1, rm, { (w.emit [Event.CreateScriptResource i]) with pluginState := c.2 }⟩
  | none =>
    ⟨Except.error (Exception.ResourceException ("Unsupported scripting language: " ++ language)),
      rm, w.emit [Event.Warning ("Plugin for scripting language " ++ language ++ " not found.")]⟩

/-- The loop of `ResourceManager::GetScriptModules`. -/
def collectModules (language : String) : List IScriptModule → List IScriptModule
  | [] => []
  | md :: rest =>
    if md.RunsLanguage language then md :: collectModules language rest
    else collectModules language rest

/-- `ResourceManager::GetScriptModules`. -/
def GetScriptModules {σ : Type} (language : String) (rm : ResourceManager σ) :
    List IScriptModule :=
  collectModules language rm.scriptModules

/-- `ResourceManager::Shutdown`. -/
def Shutdown {σ : Type} (rm : ResourceManager σ) : ResourceManager σ :=
  { rm with
    textures := [], texturePlugins := [],
    models := [], modelPlugins := [],
    shaders := [], shaderPlugins := [],
    scriptPlugins := [], scriptModules := [] }

/-! ## The three cached kinds, uniformly -/

/-- The cache of kind `k`: `textures`, `models` or `shaders`. -/
def cacheOf {σ : Type} (k : Kind) (rm : ResourceManager σ) : Map Handle :=
  match k with
  | Kind.Texture => rm.textures
  | Kind.Model => rm.models
  | Kind.Shader => rm.shaders

/-- The plug-in list of kind `k`. -/
def pluginsOf {σ : Type} (k : Kind) (rm : ResourceManager σ) : List (IResourcePlugin σ) :=
  match k with
  | Kind.Texture => rm.texturePlugins
  | Kind.Model => rm.modelPlugins
  | Kind.Shader => rm.shaderPlugins

/-- `CreateTexture`, `CreateModel` or `CreateShader`, by kind. -/
def CreateK {σ : Type} (u : Helpers) (k : Kind) (filename : String) (rm : ResourceManager σ)
    (w : World σ) : Ret σ (Except Exception Handle) :=
  match k with
  | Kind.Texture => CreateTexture u filename rm w
  | Kind.Model => CreateModel u filename rm w
  | Kind.Shader => CreateShader u filename rm w

/-- `AddTexturePlugin`, `AddModelPlugin` or `AddShaderPlugin`, by kind. -/
def AddKPlugin {σ : Type} (k : Kind) (plugin : IResourcePlugin σ) (rm : ResourceManager σ) :
    ResourceManager σ :=
  match k with
  | Kind.Texture => AddTexturePlugin plugin rm
  | Kind.Model => AddModelPlugin plugin rm
  | Kind.Shader => AddShaderPlugin plugin rm

/-- The lowercase extension the plug-ins are asked about. -/
def lowerExt (u : Helpers) (filename : String) : String :=
  u.ToLower (u.Extension filename)

/-! ## Call sequences -/

/-- One call of the public interface, or a change of the files on disk made by
somebody else (`ChangeFiles`). -/
inductive Op (σ : Type) where
  | AppendPath (str : String)
  | PrependPath (str : String)
  | IsInPath (p : String)
  | FindFileInPath (file : String)
  | AddTexturePlugin (plugin : ITextureResourcePlugin σ)
  | AddModelPlugin (plugin : IModelResourcePlugin σ)
  | AddShaderPlugin (plugin : IShaderResourcePlugin σ)
  | AddScriptPlugin (plugin : IScriptResourcePlugin σ)
  | AddScriptModule (module : IScriptModule)
  | CreateTexture (filename : String)
  | CreateModel (filename : String)
  | CreateShader (filename : String)
  | CreateScript (language : String)
  | GetScriptModules (language : String)
  | Shutdown
  | ChangeFiles (files : String → Bool)

/-- Whether the call is `Shutdown`. -/
def Op.isShutdown {σ : Type} : Op σ → Bool
  | Op.Shutdown => true
  | _ => false

/-- The members together with the world around them. -/
structure Config (σ : Type) where
  rm : ResourceManager σ
  world : World σ

/-- Drop the return value of a call. -/
def Ret.config {σ α : Type} (r : Ret σ α) : Config σ := ⟨r.rm, r.world⟩

/-- The effect of one call; return values are dropped. -/
def step {σ : Type} (u : Helpers) (op : Op σ) (c : Config σ) : Config σ :=
  match op with
  | Op.AppendPath str => ⟨AppendPath str c.rm, c.world⟩
  | Op.PrependPath str => ⟨PrependPath str c.rm, c.world⟩
  | Op.IsInPath _ => c
  | Op.FindFileInPath file => (FindFileInPath file c.rm c.world).config
  | Op.AddTexturePlugin plugin => ⟨AddTexturePlugin plugin c.rm, c.world⟩
  | Op.AddModelPlugin plugin => ⟨AddModelPlugin plugin c.rm, c.world⟩
  | Op.AddShaderPlugin plugin => ⟨AddShaderPlugin plugin c.rm, c.world⟩
  | Op.AddScriptPlugin plugin => ⟨AddScriptPlugin plugin c.rm, c.world⟩
  | Op.AddScriptModule module => ⟨AddScriptModule module c.rm, c.world⟩
  | Op.CreateTexture filename => (CreateTexture u filename c.rm c.world).config
  | Op.CreateModel filename => (CreateModel u filename c.rm c.world).config
  | Op.CreateShader filename => (CreateShader u filename c.rm c.world).config
  | Op.CreateScript language => (CreateScript language c.rm c.world).config
  | Op.GetScriptModules _ => c
  | Op.Shutdown => ⟨Shutdown c.rm, c.world⟩
  | Op.ChangeFiles files => ⟨c.rm, { c.world with files := files }⟩

/-- The effect of a sequence of calls, first call first. -/
def run {σ : Type} (u : Helpers) : List (Op σ) → Config σ → Config σ
  | [], c => c
  | op :: ops, c => run u ops (step u op c)

/-! ## Sample collaborators used to exercise the definitions -/

/-- The text after the last dot of a name (empty when there is no dot). -/
def sampleExtension (s : String) : String :=
  if s.data.contains (Char.ofNat 46) then
    String.mk ((s.data.reverse.takeWhile (fun c => c != Char.ofNat 46)).reverse)
  else ""

/-- ASCII lower-casing, character by character. -/
def sampleToLower (s : String) : String :=
  String.mk (s.data.map Char.toLower)

/-- Sample helpers. -/
def sampleHelpers : Helpers := ⟨sampleExtension, sampleToLower⟩

/-- A sample loader for one extension: construction number `n` yields the handle
`base + n` and bumps the counter. -/
def countingPlugin (ext : String) (base : Nat) : IResourcePlugin Nat :=
  ⟨fun e => e == ext, fun _ n => (Except.ok (base + n), n + 1)⟩

/-- A sample loader for one extension whose construction always throws. -/
def failingPlugin (ext : String) : IResourcePlugin Nat :=
  ⟨fun e => e == ext, fun path n => (Except.error (Exception.PluginException path), n + 1)⟩

/-- A sample script plug-in: construction number `n` yields the handle `base + n`. -/
def countingScriptPlugin (langs : List String) (base : Nat) : IScriptResourcePlugin Nat :=
  ⟨langs, fun n => (Except.ok (base + n), n + 1)⟩

/-- A sample file system holding exactly the listed paths. -/
def filesOf (present : List String) : String → Bool :=
  fun p => present.contains p

/-- A sample world: the listed files, construction counter zero, empty log. -/
def sampleWorld (present : List String) : World Nat :=
  ⟨filesOf present, 0, []⟩

/-! ## Pure readings of the calls, used to state what they do -/

/-- The first candidate of the probing loop, `""` when there is none. -/
def firstPossible (fsExists : String → Bool) (file : String) (paths : List String) : String :=
  (collectPossibles fsExists file paths).headD ""

/-- The path `FindFileInPath file` answers with, as a function of what it reads. -/
def resolvedPath {σ : Type} (file : String) (rm : ResourceManager σ) (fsExists : String → Bool) :
    String :=
  match Map.find file rm.pathcache with
  | some full => full
  | none => firstPossible fsExists file rm.paths

/-- The records `FindFileInPath file` writes to the log. -/
def resolveEvents {σ : Type} (file : String) (rm : ResourceManager σ)
    (fsExists : String → Bool) : List Event :=
  match Map.find file rm.pathcache with
  | some _ => []
  | none =>
    probeEvents file rm.paths ++
      (if 1 < (collectPossibles fsExists file rm.paths).length then
        ambiguityWarnings file (collectPossibles fsExists file rm.paths)
      else [])

/-- Replace the cache of kind `k`. -/
def setCache {σ : Type} (k : Kind) (m : Map Handle) (rm : ResourceManager σ) :
    ResourceManager σ :=
  match k with
  | Kind.Texture => { rm with textures := m }
  | Kind.Model => { rm with models := m }
  | Kind.Shader => { rm with shaders := m }

/-- The message of the exception thrown when no plug-in of kind `k` accepts. -/
def unsupportedMessage (k : Kind) (filename : String) : String :=
  match k with
  | Kind.Texture => "Unsupported file format: " ++ filename
  | Kind.Model => "Unsupported file format: " ++ filename
  | Kind.Shader => "Unsupported shader format: " ++ filename

/-- The plug-in `CreateK` selects for a file name: slot and plug-in. -/
def selectedPlugin {σ : Type} (u : Helpers) (k : Kind) (filename : String)
    (rm : ResourceManager σ) : Option (Nat × IResourcePlugin σ) :=
  (scanPlugins k (lowerExt u filename) (pluginsOf k rm) 0).1

/-- The capability queries `CreateK` makes for a file name. -/
def scanEvents {σ : Type} (u : Helpers) (k : Kind) (filename : String)
    (rm : ResourceManager σ) : List Event :=
  (scanPlugins k (lowerExt u filename) (pluginsOf k rm) 0).2

/-- Whether a record is a call of some plug-in's construct operation. -/
def Event.isConstruction : Event → Bool
  | Event.CreateResource _ _ _ => true
  | Event.CreateScriptResource _ => true
  | _ => false

/-- Whether a record is a call into a plug-in (capability query or construction). -/
def Event.isPluginCall : Event → Bool
  | Event.AcceptsExtension _ _ _ => true
  | Event.CreateResource _ _ _ => true
  | Event.CreateScriptResource _ => true
  | _ => false

/-- Whether a record is a file-system probe. -/
def Event.isProbe : Event → Bool
  | Event.Exists _ => true
  | _ => false

/-- Whether a record is a warning. -/
def Event.isWarning : Event → Bool
  | Event.Warning _ => true
  | _ => false

/-- The plug-in slot a record is about, if any. -/
def Event.slot : Event → Option Nat
  | Event.AcceptsExtension _ i _ => some i
  | Event.CreateResource _ i _ => some i
  | Event.CreateScriptResource i => some i
  | _ => none

/-- The path cache `FindFileInPath file` leaves behind. -/
def resolvedCache {σ : Type} (file : String) (rm : ResourceManager σ)
    (fsExists : String → Bool) : Map String :=
  match Map.find file rm.pathcache with
  | some _ => rm.pathcache
  | none =>
    match collectPossibles fsExists file rm.paths with
    | [] => rm.pathcache
    | p :: _ => Map.insert file p rm.pathcache

/-- The members after the path of `file` has been resolved. -/
def afterResolve {σ : Type} (file : String) (rm : ResourceManager σ)
    (fsExists : String → Bool) : ResourceManager σ :=
  { rm with pathcache := resolvedCache file rm fsExists }

/-! ## Sample configurations -/

/-- Sample members: search path `a/`, `a/b/`; one texture, model and shader
loader each. -/
def sampleManager : ResourceManager Nat :=
  AddShaderPlugin (countingPlugin "glsl" 300)
    (AddModelPlugin (countingPlugin "obj" 200)
      (AddTexturePlugin (countingPlugin "tex" 100)
        (AppendPath "a/b/" (AppendPath "a/" (ResourceManager.init Nat)))))

/-- Sample calls between two requests for the same texture. -/
def sampleCalls : List (Op Nat) :=
  [Op.AddTexturePlugin (countingPlugin "tex" 500), Op.PrependPath "z/",
    Op.ChangeFiles (filesOf []), Op.CreateTexture "y.tex", Op.CreateModel "x.tex",
    Op.FindFileInPath "x.tex", Op.CreateScript "lua"]

/-- Sample members with three texture loaders, registered in this order: one for
`png`, then two for `tex`. -/
def priorityManager : ResourceManager Nat :=
  AddTexturePlugin (countingPlugin "tex" 900)
    (AddTexturePlugin (countingPlugin "tex" 100)
      (AddTexturePlugin (countingPlugin "png" 50)
        (AppendPath "a/b/" (AppendPath "a/" (ResourceManager.init Nat)))))

/-- A sample script plug-in whose construction always throws. -/
def failingScriptPlugin (langs : List String) : IScriptResourcePlugin Nat :=
  ⟨langs, fun n => (Except.error (Exception.PluginException "interpreter"), n + 1)⟩

/-- Sample members for scripting: plug-ins for `python` and, twice, for `lua`;
one module that runs `lua` and `scheme`. -/
def scriptManager : ResourceManager Nat :=
  AddScriptModule ⟨1, ["lua", "scheme"]⟩
    (AddScriptPlugin (countingScriptPlugin ["lua"] 900)
      (AddScriptPlugin (countingScriptPlugin ["js", "lua"] 400)
        (AddScriptPlugin (countingScriptPlugin ["python"] 50) (ResourceManager.init Nat))))

/-- Sample members whose only script plug-in runs `lua` and throws on
construction. -/
def brokenScriptManager : ResourceManager Nat :=
  AddScriptPlugin (failingScriptPlugin ["lua"]) (ResourceManager.init Nat)

/-- Whether the call is `AddTexturePlugin`. -/
def Op.isAddTexturePlugin {σ : Type} : Op σ → Bool
  | Op.AddTexturePlugin _ => true
  | _ => false

/-- Sample members with three script modules, registered in this order. -/
def moduleManager : ResourceManager Nat :=
  AddScriptModule ⟨3, ["lua"]⟩
    (AddScriptModule ⟨2, ["python"]⟩
      (AddScriptModule ⟨1, ["lua", "scheme"]⟩
        (AddScriptModule ⟨3, ["lua"]⟩ (ResourceManager.init Nat))))

/-- Sample members whose only texture loader accepts `tex` and throws on
construction; search path `a/`. -/
def brokenTextureManager : ResourceManager Nat :=
  AddTexturePlugin (failingPlugin "tex") (AppendPath "a/" (ResourceManager.init Nat))

/-- Sample members after some use: a resident texture and a memoized path. -/
def usedManager : ResourceManager Nat :=
  (CreateTexture sampleHelpers "x.tex" sampleManager (sampleWorld ["a/b/x.tex"])).rm


/-- Every resident name of every kind has a registered plug-in of that kind
accepting its lowercase extension. -/
def Supported {σ : Type} (u : Helpers) (rm : ResourceManager σ) : Prop :=
  ∀ (k : Kind) (f : String) (h : Handle), Map.find f (cacheOf k rm) = some h →
    ∃ p ∈ pluginsOf k rm, p.AcceptsExtension (u.ToLower (u.Extension f)) = true

/-- Sample calls that build up some residency from the initial state. -/
def sampleSession : List (Op Nat) :=
  [Op.AppendPath "a/", Op.AddTexturePlugin (countingPlugin "tex" 100),
    Op.AddModelPlugin (countingPlugin "obj" 200), Op.CreateTexture "x.TEX",
    Op.CreateModel "m.obj", Op.CreateModel "x.TEX", Op.AddTexturePlugin (countingPlugin "png" 1)]


end Resources

/-!
# `Math/Matrix.h`

`Matrix<M,N,T>` is the template class with its element array
`T elm[M][N]`; here a matrix is the content of that array, a function of the
row and the column index.  The `for` loops of the member functions are kept as
loops (`forLoop`, `forLoopE`) over the same index ranges, and every assignment
to an element is a `Matrix.set`.  The element type is any semiring (the
integers in the examples), so arithmetic is exact.

An array that has been declared but not yet filled has arbitrary content: the
constructors take that content as the argument `raw`.
-/

namespace Math

/-- `for (int i = lo; i < hi; i++) s = body(i, s);` -/
def forLoop {σ : Type} (lo hi : Nat) (body : Nat → σ → σ) (s : σ) : σ :=
  (List.range' lo (hi - lo)).foldl (fun acc i => body i acc) s

/-- The same loop with a body that may throw: the first exception ends it. -/
def forLoopE {σ ε : Type} (lo hi : Nat) (body : Nat → σ → Except ε σ) (s : σ) : Except ε σ :=
  (List.range' lo (hi - lo)).foldlM (fun acc i => body i acc) s

/-- The exception of checked element access, built as
`IndexOutOfBounds(index, low, high)`; its declaration is not among the
sources. -/
structure IndexOutOfBounds where
  index : Int
  low : Int
  high : Int
  deriving DecidableEq, Repr

/-- `Matrix<M,N,T>`: the element array `elm`. -/
structure Matrix (M N : Nat) (T : Type) where
  elm : Fin M → Fin N → T

/-- Unchecked read `elm[i][j]`.  The loops below only read inside the array;
a read outside it (undefined in C++) yields zero here. -/
def Matrix.get {M N : Nat} {T : Type} [Zero T] (m : Matrix M N T) (i j : Nat) : T :=
  if h : i < M ∧ j < N then m.elm ⟨i, h.1⟩ ⟨j, h.2⟩ else 0

/-- Unchecked write `elm[i][j] = v`.  The loops below only write inside the
array; a write outside it has no effect here. -/
def Matrix.set {M N : Nat} {T : Type} (m : Matrix M N T) (i j : Nat) (v : T) : Matrix M N T :=
  ⟨fun a b => if a.val = i ∧ b.val = j then v else m.elm a b⟩

/-- `Matrix::Matrix()`, the default constructor. -/
def Matrix.ctor {M N : Nat} {T : Type} [Zero T] [One T] (raw : Matrix M N T) : Matrix M N T :=
  forLoop 0 M (fun i m =>
    forLoop 0 N (fun j m => m.set i j (if i = j then 1 else 0)) m) raw

/-- `Matrix::Matrix(a, b, c, d)`, the constructor of a 2x2 matrix. -/
def Matrix.ctor2x2 {T : Type} (raw : Matrix 2 2 T) (a b c d : T) : Matrix 2 2 T :=
  (((raw.set 0 0 a).set 0 1 b).set 1 0 c).set 1 1 d

/-- `Matrix::operator()` used as an assignment target, `m(i,j) = v`: checked
access. -/
def Matrix.assignAt {M N : Nat} {T : Type} (m : Matrix M N T) (i j : Int) (v : T) :
    Except IndexOutOfBounds (Matrix M N T) :=
  if i < 0 ∨ i ≥ M then Except.error ⟨i, 0, M⟩
  else if j < 0 ∨ j ≥ N then Except.error ⟨j, 0, N⟩
  else Except.ok (m.set i.toNat j.toNat v)

/-- `Matrix::operator()` used as a value, `m(i,j)`: checked access. -/
def Matrix.valueAt {M N : Nat} {T : Type} [Zero T] (m : Matrix M N T) (i j : Int) :
    Except IndexOutOfBounds T :=
  if i < 0 ∨ i ≥ M then Except.error ⟨i, 0, M⟩
  else if j < 0 ∨ j ≥ N then Except.error ⟨j, 0, N⟩
  else Except.ok (m.get i.toNat j.toNat)

/-- `Matrix::operator*`: `r` is default-constructed, then every element is
assigned the sum accumulated by the inner loop. -/
def Matrix.mul {M N : Nat} {T : Type} [Semiring T] (raw : Matrix M M T) (a : Matrix M N T)
    (m : Matrix N M T) : Matrix M M T :=
  forLoop 0 M (fun i r =>
    forLoop 0 M (fun j r =>
      r.set i j (forLoop 0 N (fun t s => s + a.get i t * m.get t j) 0)) r)
    (Matrix.ctor raw)

/-- `Matrix::Trace`, for square matrices. -/
def Matrix.Trace {N : Nat} {T : Type} [Semiring T] (m : Matrix N N T) : T :=
  forLoop 0 N (fun i t => t + m.get i i) 0

/-- `Matrix::Transpose`, for square matrices: the in-place swap loop. -/
def Matrix.Transpose {N : Nat} {T : Type} [Zero T] (m : Matrix N N T) : Matrix N N T :=
  forLoop 1 N (fun i m =>
    forLoop 0 i (fun j m =>
      let tmp := m.get i j
      (m.set i j (m.get j i)).set j i tmp) m) m

/-- `Matrix::GetExpanded`: `m` is a default-constructed matrix one larger each
way, filled through checked access. -/
def Matrix.GetExpanded {M N : Nat} {T : Type} [Zero T] [One T] (raw : Matrix (M + 1) (N + 1) T)
    (self : Matrix M N T) : Except IndexOutOfBounds (Matrix (M + 1) (N + 1) T) :=
  forLoopE 0 M (fun i m =>
    forLoopE 0 N (fun j m => m.assignAt (i : Int) (j : Int) (self.get i j)) m)
    (Matrix.ctor raw)

/-- The rows of a matrix, each as the list of its elements. -/
def Matrix.rows {M N : Nat} {T : Type} (m : Matrix M N T) : List (List T) :=
  (List.finRange M).map (fun i => (List.finRange N).map (fun j => m.elm i j))

/-- Sample content of a declared but unfilled array. -/
def sampleRaw (M N : Nat) : Matrix M N Int := ⟨fun i j => 1000 + 10 * i.val + j.val⟩

end Math

namespace Resources

/-! ## Lemmas on maps -/

theorem Map.find_insert {V : Type} (key k : String) (val : V) (m : Map V) :
    Map.find k (Map.insert key val m) = if key = k then some val else Map.find k m := by
  induction m with
  | nil => simp [Map.insert, Map.find]
  | cons e rest ih =>
    obtain ⟨k0, v0⟩ := e
    simp only [Map.insert]
    by_cases h1 : k0 = key
    · subst h1
      by_cases h2 : k0 = k <;> simp [Map.find, h2]
    · by_cases h3 : key.data < k0.data
      · by_cases h2 : key = k
        · subst h2
          simp [Map.find, h1, h3]
        · simp [Map.find, h1, h2, h3]
      · by_cases h2 : key = k
        · subst h2
          simp [Map.find, h1, h3, ih]
        · simp [Map.find, h1, h2, h3, ih]

theorem Map.find_insert_self {V : Type} (key : String) (val : V) (m : Map V) :
    Map.find key (Map.insert key val m) = some val := by
  simp [Map.find_insert]

theorem Map.find_insert_of_ne {V : Type} {key k : String} (val : V) (m : Map V) (h : key ≠ k) :
    Map.find k (Map.insert key val m) = Map.find k m := by
  simp [Map.find_insert, h]

theorem Map.find_insert_keeps {V : Type} {key k : String} {val v : V} {m : Map V}
    (habs : Map.find key m = none) (h : Map.find k m = some v) :
    Map.find k (Map.insert key val m) = some v := by
  have hne : key ≠ k := by
    intro e
    subst e
    rw [habs] at h
    cases h
  rw [Map.find_insert_of_ne val m hne, h]

theorem Map.length_insert {V : Type} (key : String) (val : V) (m : Map V)
    (habs : Map.find key m = none) : (Map.insert key val m).length = m.length + 1 := by
  induction m with
  | nil => simp [Map.insert]
  | cons e rest ih =>
    obtain ⟨k0, v0⟩ := e
    by_cases h1 : k0 = key
    · simp [Map.find, h1] at habs
    · have hrest : Map.find key rest = none := by simpa [Map.find, h1] using habs
      by_cases h3 : key.data < k0.data
      · simp [Map.insert, h1, h3]
      · simp [Map.insert, h1, h3, ih hrest]

/-! ## Lemmas on `FindFileInPath` -/

theorem FindFileInPath_hit {σ : Type} {file full : String} {rm : ResourceManager σ}
    (w : World σ) (h : Map.find file rm.pathcache = some full) :
    FindFileInPath file rm w = ⟨full, rm, w⟩ := by
  simp [FindFileInPath, h]

/-! ## `FindFileInPath`, call by call -/

theorem FindFileInPath_value {σ : Type} (file : String) (rm : ResourceManager σ) (w : World σ) :
    (FindFileInPath file rm w).value = resolvedPath file rm w.files := by
  unfold FindFileInPath resolvedPath firstPossible
  split
  · rfl
  · dsimp only
    split <;> simp_all

theorem FindFileInPath_world {σ : Type} (file : String) (rm : ResourceManager σ) (w : World σ) :
    (FindFileInPath file rm w).world = w.emit (resolveEvents file rm w.files) := by
  unfold FindFileInPath resolveEvents
  split
  · simp [World.emit]
  · dsimp only
    split <;> simp_all [World.emit]

theorem FindFileInPath_rm {σ : Type} (file : String) (rm : ResourceManager σ) (w : World σ) :
    (FindFileInPath file rm w).rm = afterResolve file rm w.files := by
  unfold FindFileInPath afterResolve resolvedCache
  split
  · simp_all
  · dsimp only
    split <;> simp_all

theorem FindFileInPath_eq {σ : Type} (file : String) (rm : ResourceManager σ) (w : World σ) :
    FindFileInPath file rm w
      = ⟨resolvedPath file rm w.files, afterResolve file rm w.files,
          w.emit (resolveEvents file rm w.files)⟩ := by
  rw [← FindFileInPath_value, ← FindFileInPath_world, ← FindFileInPath_rm]

/-- Resolution never forgets a cached path. -/
theorem resolvedCache_keeps {σ : Type} (file : String) (rm : ResourceManager σ)
    (fsExists : String → Bool) {g p : String} (h : Map.find g rm.pathcache = some p) :
    Map.find g (resolvedCache file rm fsExists) = some p := by
  unfold resolvedCache
  split
  · exact h
  · rename_i habs
    split
    · exact h
    · exact Map.find_insert_keeps habs h

/-! ## `CreateTexture`, `CreateModel`, `CreateShader`, uniformly -/

@[simp] theorem cacheOf_setCache {σ : Type} (k : Kind) (m : Map Handle) (rm : ResourceManager σ) :
    cacheOf k (setCache k m rm) = m := by
  cases k <;> rfl

theorem cacheOf_setCache_of_ne {σ : Type} {k k' : Kind} (h : k' ≠ k) (m : Map Handle)
    (rm : ResourceManager σ) : cacheOf k' (setCache k m rm) = cacheOf k' rm := by
  cases k <;> cases k' <;> first | rfl | exact absurd rfl h

@[simp] theorem pluginsOf_setCache {σ : Type} (k k' : Kind) (m : Map Handle)
    (rm : ResourceManager σ) : pluginsOf k' (setCache k m rm) = pluginsOf k' rm := by
  cases k <;> cases k' <;> rfl

@[simp] theorem pathcache_setCache {σ : Type} (k : Kind) (m : Map Handle)
    (rm : ResourceManager σ) : (setCache k m rm).pathcache = rm.pathcache := by
  cases k <;> rfl

@[simp] theorem paths_setCache {σ : Type} (k : Kind) (m : Map Handle)
    (rm : ResourceManager σ) : (setCache k m rm).paths = rm.paths := by
  cases k <;> rfl

@[simp] theorem scriptPlugins_setCache {σ : Type} (k : Kind) (m : Map Handle)
    (rm : ResourceManager σ) : (setCache k m rm).scriptPlugins = rm.scriptPlugins := by
  cases k <;> rfl

@[simp] theorem scriptModules_setCache {σ : Type} (k : Kind) (m : Map Handle)
    (rm : ResourceManager σ) : (setCache k m rm).scriptModules = rm.scriptModules := by
  cases k <;> rfl

@[simp] theorem cacheOf_afterResolve {σ : Type} (k : Kind) (file : String)
    (rm : ResourceManager σ) (fsExists : String → Bool) :
    cacheOf k (afterResolve file rm fsExists) = cacheOf k rm := by
  cases k <;> rfl

@[simp] theorem pluginsOf_afterResolve {σ : Type} (k : Kind) (file : String)
    (rm : ResourceManager σ) (fsExists : String → Bool) :
    pluginsOf k (afterResolve file rm fsExists) = pluginsOf k rm := by
  cases k <;> rfl

/-- The three creation functions are one algorithm over `cacheOf`, `pluginsOf`
and `setCache`. -/
theorem CreateK_eq {σ : Type} (u : Helpers) (k : Kind) (filename : String)
    (rm : ResourceManager σ) (w : World σ) :
    CreateK u k filename rm w =
      match Map.find filename (cacheOf k rm) with
      | some h => ⟨Except.ok h, rm, w⟩
      | none =>
        match selectedPlugin u k filename rm with
        | some (i, plugin) =>
          match (plugin.CreateResource (resolvedPath filename rm w.files) w.pluginState).1 with
          | Except.ok h =>
            ⟨Except.ok h,
              setCache k (Map.insert filename h (cacheOf k rm)) (afterResolve filename rm w.files),
              ⟨w.files,
                (plugin.CreateResource (resolvedPath filename rm w.files) w.pluginState).2,
                w.log ++ scanEvents u k filename rm ++ resolveEvents filename rm w.files
                  ++ [Event.CreateResource k i (resolvedPath filename rm w.files)]⟩⟩
          | Except.error e =>
            ⟨Except.error e, afterResolve filename rm w.files,
              ⟨w.files,
                (plugin.CreateResource (resolvedPath filename rm w.files) w.pluginState).2,
                w.log ++ scanEvents u k filename rm ++ resolveEvents filename rm w.files
                  ++ [Event.CreateResource k i (resolvedPath filename rm w.files)]⟩⟩
        | none =>
          ⟨Except.error (Exception.ResourceException (unsupportedMessage k filename)), rm,
            ⟨w.files, w.pluginState,
              w.log ++ scanEvents u k filename rm
                ++ [Event.Warning ("Plugin for ." ++ lowerExt u filename ++ " not found.")]⟩⟩ := by
  cases k
  all_goals
    simp only [CreateK, CreateTexture, CreateModel, CreateShader, cacheOf, selectedPlugin,
      scanEvents, pluginsOf, lowerExt, setCache, unsupportedMessage]
    split
    · rfl
    · split
      · simp only [FindFileInPath_eq, World.emit]
        split <;> simp_all [afterResolve]
      · simp [World.emit]

theorem CreateK_hit {σ : Type} (u : Helpers) {k : Kind} {filename : String}
    {rm : ResourceManager σ} (w : World σ) {h : Handle}
    (hres : Map.find filename (cacheOf k rm) = some h) :
    CreateK u k filename rm w = ⟨Except.ok h, rm, w⟩ := by
  rw [CreateK_eq, hres]

theorem CreateK_unsupported {σ : Type} (u : Helpers) {k : Kind} {filename : String}
    {rm : ResourceManager σ} (w : World σ)
    (hmiss : Map.find filename (cacheOf k rm) = none)
    (hnone : selectedPlugin u k filename rm = none) :
    CreateK u k filename rm w =
      ⟨Except.error (Exception.ResourceException (unsupportedMessage k filename)), rm,
        ⟨w.files, w.pluginState,
          w.log ++ scanEvents u k filename rm
            ++ [Event.Warning ("Plugin for ." ++ lowerExt u filename ++ " not found.")]⟩⟩ := by
  rw [CreateK_eq, hmiss, hnone]

theorem CreateK_loaded {σ : Type} (u : Helpers) {k : Kind} {filename : String}
    {rm : ResourceManager σ} (w : World σ) {i : Nat} {plugin : IResourcePlugin σ} {h : Handle}
    (hmiss : Map.find filename (cacheOf k rm) = none)
    (hsel : selectedPlugin u k filename rm = some (i, plugin))
    (hok : (plugin.CreateResource (resolvedPath filename rm w.files) w.pluginState).1
      = Except.ok h) :
    CreateK u k filename rm w =
      ⟨Except.ok h,
        setCache k (Map.insert filename h (cacheOf k rm)) (afterResolve filename rm w.files),
        ⟨w.files, (plugin.CreateResource (resolvedPath filename rm w.files) w.pluginState).2,
          w.log ++ scanEvents u k filename rm ++ resolveEvents filename rm w.files
            ++ [Event.CreateResource k i (resolvedPath filename rm w.files)]⟩⟩ := by
  rw [CreateK_eq, hmiss]
  simp only [hsel, hok]

theorem CreateK_failed {σ : Type} (u : Helpers) {k : Kind} {filename : String}
    {rm : ResourceManager σ} (w : World σ) {i : Nat} {plugin : IResourcePlugin σ}
    {e : Exception}
    (hmiss : Map.find filename (cacheOf k rm) = none)
    (hsel : selectedPlugin u k filename rm = some (i, plugin))
    (herr : (plugin.CreateResource (resolvedPath filename rm w.files) w.pluginState).1
      = Except.error e) :
    CreateK u k filename rm w =
      ⟨Except.error e, afterResolve filename rm w.files,
        ⟨w.files, (plugin.CreateResource (resolvedPath filename rm w.files) w.pluginState).2,
          w.log ++ scanEvents u k filename rm ++ resolveEvents filename rm w.files
            ++ [Event.CreateResource k i (resolvedPath filename rm w.files)]⟩⟩ := by
  rw [CreateK_eq, hmiss]
  simp only [hsel, herr]

/-- A handle that a creation call returns is resident afterwards. -/
theorem CreateK_returns_resident {σ : Type} (u : Helpers) (k : Kind) (filename : String)
    (rm : ResourceManager σ) (w : World σ) (h : Handle)
    (hret : (CreateK u k filename rm w).value = Except.ok h) :
    Map.find filename (cacheOf k (CreateK u k filename rm w).rm) = some h := by
  cases hres : Map.find filename (cacheOf k rm) with
  | some h0 =>
    rw [CreateK_hit u w hres] at hret ⊢
    cases hret
    exact hres
  | none =>
    cases hsel : selectedPlugin u k filename rm with
    | none =>
      rw [CreateK_unsupported u w hres hsel] at hret
      cases hret
    | some ip =>
      obtain ⟨i, plugin⟩ := ip
      cases hc : (plugin.CreateResource (resolvedPath filename rm w.files) w.pluginState).1 with
      | error e =>
        rw [CreateK_failed u w hres hsel hc] at hret
        cases hret
      | ok h1 =>
        rw [CreateK_loaded u w hres hsel hc] at hret ⊢
        cases hret
        simp [Map.find_insert_self]

/-- A creation call of any kind never removes or changes a resident entry of any kind. -/
theorem CreateK_keeps_resident {σ : Type} (u : Helpers) (k k' : Kind) (filename g : String)
    (rm : ResourceManager σ) (w : World σ) (h : Handle)
    (hres : Map.find g (cacheOf k' rm) = some h) :
    Map.find g (cacheOf k' (CreateK u k filename rm w).rm) = some h := by
  rw [CreateK_eq]
  split
  · exact hres
  · rename_i hmiss
    split
    · split
      · by_cases hk : k' = k
        · subst hk
          simp only [cacheOf_setCache]
          exact Map.find_insert_keeps hmiss hres
        · simp only [cacheOf_setCache_of_ne hk, cacheOf_afterResolve]
          exact hres
      · simpa using hres
    · exact hres

/-- Every call but `Shutdown` keeps every resident entry. -/
theorem step_keeps_resident {σ : Type} (u : Helpers) (op : Op σ) (c : Config σ) (k : Kind)
    (g : String) (h : Handle) (hop : op.isShutdown = false)
    (hres : Map.find g (cacheOf k c.rm) = some h) :
    Map.find g (cacheOf k (step u op c).rm) = some h := by
  cases op with
  | Shutdown => simp [Op.isShutdown] at hop
  | CreateTexture f => exact CreateK_keeps_resident u Kind.Texture k f g c.rm c.world h hres
  | CreateModel f => exact CreateK_keeps_resident u Kind.Model k f g c.rm c.world h hres
  | CreateShader f => exact CreateK_keeps_resident u Kind.Shader k f g c.rm c.world h hres
  | FindFileInPath f =>
    simp only [step, Ret.config, FindFileInPath_rm, cacheOf_afterResolve]
    exact hres
  | CreateScript l =>
    simp only [step, Ret.config, CreateScript]
    split <;> exact hres
  | _ => cases k <;> exact hres

theorem run_keeps_resident {σ : Type} (u : Helpers) (ops : List (Op σ)) (c : Config σ)
    (k : Kind) (g : String) (h : Handle) (hops : ∀ op ∈ ops, op.isShutdown = false)
    (hres : Map.find g (cacheOf k c.rm) = some h) :
    Map.find g (cacheOf k (run u ops c).rm) = some h := by
  induction ops generalizing c with
  | nil => exact hres
  | cons op ops ih =>
    simp only [run]
    apply ih
    · intro op' hmem
      exact hops op' (List.mem_cons_of_mem _ hmem)
    · exact step_keeps_resident u op c k g h (hops op (List.mem_cons_self _ _)) hres

/-- C1. Once `CreateK(f)` has returned a handle `h`, then after any sequence of
calls that contains no `Shutdown` (plug-in registrations, search-path changes,
other creations and look-ups, changes of the files on disk), `CreateK(f)`
returns `h` again and leaves the members and the world exactly as they were: no
log record is written, so no plug-in is called and no file is probed. -/
theorem resident_handle_is_reused {σ : Type} (u : Helpers) (k : Kind) (f : String)
    (rm : ResourceManager σ) (w : World σ) (h : Handle) (ops : List (Op σ))
    (hret : (CreateK u k f rm w).value = Except.ok h)
    (hops : ∀ op ∈ ops, op.isShutdown = false) :
    CreateK u k f (run u ops (CreateK u k f rm w).config).rm
        (run u ops (CreateK u k f rm w).config).world
      = ⟨Except.ok h, (run u ops (CreateK u k f rm w).config).rm,
          (run u ops (CreateK u k f rm w).config).world⟩ := by
  apply CreateK_hit
  apply run_keeps_resident u ops _ k f h hops
  exact CreateK_returns_resident u k f rm w h hret

theorem resident_handle_is_reused_witness :
    (CreateK sampleHelpers Kind.Texture "x.tex" sampleManager
        (sampleWorld ["a/b/x.tex"])).value = Except.ok 100
    ∧ (∀ op ∈ sampleCalls, op.isShutdown = false)
    ∧ CreateK sampleHelpers Kind.Texture "x.tex"
        (run sampleHelpers sampleCalls (CreateK sampleHelpers Kind.Texture "x.tex" sampleManager
          (sampleWorld ["a/b/x.tex"])).config).rm
        (run sampleHelpers sampleCalls (CreateK sampleHelpers Kind.Texture "x.tex" sampleManager
          (sampleWorld ["a/b/x.tex"])).config).world
      = ⟨Except.ok 100,
          (run sampleHelpers sampleCalls (CreateK sampleHelpers Kind.Texture "x.tex"
            sampleManager (sampleWorld ["a/b/x.tex"])).config).rm,
          (run sampleHelpers sampleCalls (CreateK sampleHelpers Kind.Texture "x.tex"
            sampleManager (sampleWorld ["a/b/x.tex"])).config).world⟩ :=
  ⟨by decide, by decide,
    resident_handle_is_reused sampleHelpers Kind.Texture "x.tex" sampleManager
      (sampleWorld ["a/b/x.tex"]) 100 sampleCalls (by decide) (by decide)⟩


/-! ## The plug-in scan -/

theorem scanPlugins_none_iff {σ : Type} (k : Kind) (ext : String)
    (ps : List (IResourcePlugin σ)) (i : Nat) :
    (scanPlugins k ext ps i).1 = none ↔ ∀ p ∈ ps, p.AcceptsExtension ext = false := by
  induction ps generalizing i with
  | nil => simp [scanPlugins]
  | cons p rest ih =>
    by_cases hp : p.AcceptsExtension ext = true
    · simp [scanPlugins, hp]
    · simp [scanPlugins, hp, ih]

/-- The scan stops at the first accepting plug-in: with no accepting plug-in in
`pre`, the plug-in right after `pre` is selected after one capability query per
slot up to and including its own. -/
theorem scanPlugins_first {σ : Type} (k : Kind) (ext : String)
    (pre : List (IResourcePlugin σ)) (P : IResourcePlugin σ) (post : List (IResourcePlugin σ))
    (i : Nat) (hpre : ∀ p ∈ pre, p.AcceptsExtension ext = false)
    (hP : P.AcceptsExtension ext = true) :
    scanPlugins k ext (pre ++ P :: post) i
      = (some (i + pre.length, P),
          (List.range' i (pre.length + 1)).map (fun j => Event.AcceptsExtension k j ext)) := by
  induction pre generalizing i with
  | nil => simp [scanPlugins, hP]
  | cons p rest ih =>
    have hp : p.AcceptsExtension ext = false := hpre p (List.mem_cons_self _ _)
    have hrest : ∀ q ∈ rest, q.AcceptsExtension ext = false :=
      fun q hq => hpre q (List.mem_cons_of_mem _ hq)
    rw [List.cons_append]
    simp only [scanPlugins, hp, ih (i + 1) hrest]
    simp only [Bool.false_eq_true, if_false, List.length_cons, Prod.mk.injEq]
    refine ⟨?_, ?_⟩
    · have : i + 1 + rest.length = i + (rest.length + 1) := by omega
      rw [this]
    · rw [List.range'_succ i (rest.length + 1)]
      rfl

/-- Whatever the scan selects is a registered plug-in that accepts, and nothing
registered before it accepts. -/
theorem scanPlugins_some {σ : Type} (k : Kind) (ext : String) (ps : List (IResourcePlugin σ))
    (i j : Nat) (P : IResourcePlugin σ) (h : (scanPlugins k ext ps i).1 = some (j, P)) :
    ∃ pre post, ps = pre ++ P :: post ∧ j = i + pre.length
      ∧ (∀ p ∈ pre, p.AcceptsExtension ext = false) ∧ P.AcceptsExtension ext = true := by
  induction ps generalizing i with
  | nil => simp [scanPlugins] at h
  | cons p rest ih =>
    by_cases hp : p.AcceptsExtension ext = true
    · simp only [scanPlugins, hp, if_true, Option.some.injEq, Prod.mk.injEq] at h
      obtain ⟨rfl, rfl⟩ := h
      exact ⟨[], rest, rfl, rfl, by simp, hp⟩
    · simp only [scanPlugins, hp] at h
      obtain ⟨pre, post, hsplit, hj, hpre, hP⟩ := ih (i + 1) h
      refine ⟨p :: pre, post, by simp [hsplit], by simp [hj]; omega, ?_, hP⟩
      intro q hq
      rcases List.mem_cons.mp hq with rfl | hq
      · simpa using hp
      · exact hpre q hq

theorem selectedPlugin_of_accepting {σ : Type} (u : Helpers) (k : Kind) (f : String)
    (rm : ResourceManager σ)
    (hacc : ∃ p ∈ pluginsOf k rm, p.AcceptsExtension (lowerExt u f) = true) :
    ∃ i P, selectedPlugin u k f rm = some (i, P) := by
  cases hsel : selectedPlugin u k f rm with
  | some ip => exact ⟨ip.1, ip.2, rfl⟩
  | none =>
    obtain ⟨p, hp, hacc⟩ := hacc
    have := (scanPlugins_none_iff k (lowerExt u f) (pluginsOf k rm) 0).mp hsel p hp
    rw [this] at hacc
    cases hacc

theorem scanEvents_no_construction {σ : Type} (k : Kind) (ext : String)
    (ps : List (IResourcePlugin σ)) (i : Nat) :
    (scanPlugins k ext ps i).2.filter Event.isConstruction = [] := by
  induction ps generalizing i with
  | nil => rfl
  | cons p rest ih =>
    by_cases hp : p.AcceptsExtension ext = true
    · simp [scanPlugins, hp, Event.isConstruction]
    · simp [scanPlugins, hp, Event.isConstruction, ih]

theorem probeEvents_no_construction (file : String) (paths : List String) :
    (probeEvents file paths).filter Event.isConstruction = [] := by
  induction paths with
  | nil => rfl
  | cons d rest ih => simp [probeEvents, Event.isConstruction, ih]

theorem resolveEvents_no_construction {σ : Type} (file : String) (rm : ResourceManager σ)
    (fsExists : String → Bool) :
    (resolveEvents file rm fsExists).filter Event.isConstruction = [] := by
  unfold resolveEvents
  split
  · rfl
  · split
    · simp [probeEvents_no_construction, ambiguityWarnings, Event.isConstruction,
        List.filter_eq_nil_iff]
    · simp [probeEvents_no_construction]

theorem resolvedCache_find_of_ne {σ : Type} {file g : String} (rm : ResourceManager σ)
    (fsExists : String → Bool) (hne : file ≠ g) :
    Map.find g (resolvedCache file rm fsExists) = Map.find g rm.pathcache := by
  unfold resolvedCache
  split
  · rfl
  · split
    · rfl
    · exact Map.find_insert_of_ne _ _ hne

theorem resolvedPath_after_create {σ : Type} {file g : String} (k : Kind) (m : Map Handle)
    (rm : ResourceManager σ) (fs1 fs2 : String → Bool) (hne : file ≠ g) :
    resolvedPath g (setCache k m (afterResolve file rm fs1)) fs2 = resolvedPath g rm fs2 := by
  unfold resolvedPath
  simp only [pathcache_setCache, paths_setCache, afterResolve, resolvedCache_find_of_ne rm fs1 hne]

theorem selectedPlugin_after_create {σ : Type} (u : Helpers) (k k' : Kind) (file g : String)
    (m : Map Handle) (rm : ResourceManager σ) (fs1 : String → Bool) :
    selectedPlugin u k' g (setCache k m (afterResolve file rm fs1)) = selectedPlugin u k' g rm := by
  simp [selectedPlugin]

theorem scanEvents_filter_construction {σ : Type} (u : Helpers) (k : Kind) (f : String)
    (rm : ResourceManager σ) : (scanEvents u k f rm).filter Event.isConstruction = [] :=
  scanEvents_no_construction _ _ _ _

/-- A creation call that misses the cache and still returns a handle got it
from the selected plug-in. -/
theorem CreateK_ok_of_miss {σ : Type} (u : Helpers) (k : Kind) (f : String)
    (rm : ResourceManager σ) (w : World σ) (h : Handle)
    (hmiss : Map.find f (cacheOf k rm) = none)
    (hret : (CreateK u k f rm w).value = Except.ok h) :
    ∃ i P, selectedPlugin u k f rm = some (i, P)
      ∧ (P.CreateResource (resolvedPath f rm w.files) w.pluginState).1 = Except.ok h := by
  cases hsel : selectedPlugin u k f rm with
  | none =>
    rw [CreateK_unsupported u w hmiss hsel] at hret
    cases hret
  | some ip =>
    obtain ⟨i, P⟩ := ip
    cases hc : (P.CreateResource (resolvedPath f rm w.files) w.pluginState).1 with
    | error e =>
      rw [CreateK_failed u w hmiss hsel hc] at hret
      cases hret
    | ok h1 =>
      rw [CreateK_loaded u w hmiss hsel hc] at hret
      cases hret
      exact ⟨i, P, rfl, hc⟩

/-- C2. When some registered plug-in of kind `K` accepts the lowercase
extension of `f`, a plug-in is selected.  (a) When `f` is not resident and the
selected plug-in's construct operation, called with the path
`FindFileInPath(f)`, returns a handle `h`, then `CreateK(f)` returns `h` and the
`K` cache becomes the old cache with the one entry `f -> h` inserted: every
other name maps to what it mapped to before and the cache has one entry more.
(b) The key is the requested name: when two
different names `f1`, `f2`, both not resident, are created one after the other,
both become resident, the cache grows by two entries and the calls made contain
exactly two constructions, one on the path resolved for each name, whether or
not those two paths are the same. -/
theorem created_handle_is_cached_under_requested_name {σ : Type} (u : Helpers) (k : Kind)
    (rm : ResourceManager σ) (w : World σ) :
    (∀ f : String,
      (∃ p ∈ pluginsOf k rm, p.AcceptsExtension (u.ToLower (u.Extension f)) = true) →
      ∃ i P, selectedPlugin u k f rm = some (i, P))
    ∧ (∀ (f : String) (i : Nat) (P : IResourcePlugin σ) (h : Handle),
        Map.find f (cacheOf k rm) = none →
        selectedPlugin u k f rm = some (i, P) →
        (P.CreateResource (FindFileInPath f rm w).value w.pluginState).1 = Except.ok h →
        (CreateK u k f rm w).value = Except.ok h
        ∧ cacheOf k (CreateK u k f rm w).rm = Map.insert f h (cacheOf k rm)
        ∧ (∀ g, Map.find g (cacheOf k (CreateK u k f rm w).rm)
              = if f = g then some h else Map.find g (cacheOf k rm))
        ∧ (cacheOf k (CreateK u k f rm w).rm).length = (cacheOf k rm).length + 1)
    ∧ (∀ (f1 f2 : String) (h1 h2 : Handle), f1 ≠ f2 →
        Map.find f1 (cacheOf k rm) = none → Map.find f2 (cacheOf k rm) = none →
        (CreateK u k f1 rm w).value = Except.ok h1 →
        (CreateK u k f2 (CreateK u k f1 rm w).rm (CreateK u k f1 rm w).world).value
          = Except.ok h2 →
        Map.find f1 (cacheOf k
            (CreateK u k f2 (CreateK u k f1 rm w).rm (CreateK u k f1 rm w).world).rm) = some h1
        ∧ Map.find f2 (cacheOf k
            (CreateK u k f2 (CreateK u k f1 rm w).rm (CreateK u k f1 rm w).world).rm) = some h2
        ∧ (cacheOf k
            (CreateK u k f2 (CreateK u k f1 rm w).rm (CreateK u k f1 rm w).world).rm).length
            = (cacheOf k rm).length + 2
        ∧ ∃ i1 i2,
            ((CreateK u k f2 (CreateK u k f1 rm w).rm (CreateK u k f1 rm w).world).world.log.drop
                w.log.length).filter Event.isConstruction
              = [Event.CreateResource k i1 (FindFileInPath f1 rm w).value,
                  Event.CreateResource k i2 (FindFileInPath f2 rm w).value]) := by
  refine ⟨fun f hacc => selectedPlugin_of_accepting u k f rm hacc, ?_, ?_⟩
  · intro f i P h hmiss hsel hok
    rw [FindFileInPath_value] at hok
    rw [CreateK_loaded u w hmiss hsel hok]
    refine ⟨rfl, by simp, ?_, ?_⟩
    · intro g
      simp [Map.find_insert]
    · simp [Map.length_insert _ _ _ hmiss]
  · intro f1 f2 h1 h2 hne hm1 hm2 hr1 hr2
    obtain ⟨i1, P1, hsel1, hok1⟩ := CreateK_ok_of_miss u k f1 rm w h1 hm1 hr1
    rw [CreateK_loaded u w hm1 hsel1 hok1] at hr2 ⊢
    have hm2' : Map.find f2 (cacheOf k (setCache k (Map.insert f1 h1 (cacheOf k rm))
        (afterResolve f1 rm w.files))) = none := by
      simp [Map.find_insert_of_ne _ _ hne, hm2]
    obtain ⟨i2, P2, hsel2, hok2⟩ := CreateK_ok_of_miss u k f2 _ _ h2 hm2' hr2
    rw [CreateK_loaded u _ hm2' hsel2 hok2]
    simp only [cacheOf_setCache, FindFileInPath_value]
    refine ⟨?_, Map.find_insert_self _ _ _, ?_, i1, i2, ?_⟩
    · rw [Map.find_insert_of_ne _ _ hne.symm, Map.find_insert_self]
    · rw [Map.length_insert, Map.length_insert _ _ _ hm1]
      rw [Map.find_insert_of_ne _ _ hne, hm2]
    · simp only [resolvedPath_after_create k _ rm w.files w.files hne, List.append_assoc,
        List.drop_left, List.filter_append, scanEvents_filter_construction,
        resolveEvents_no_construction]
      simp [Event.isConstruction]

theorem created_handle_is_cached_under_requested_name_witness :
    ((CreateK sampleHelpers Kind.Texture "x.tex" sampleManager
        (sampleWorld ["a/b/x.tex"])).value = Except.ok 100
      ∧ cacheOf Kind.Texture (CreateK sampleHelpers Kind.Texture "x.tex" sampleManager
          (sampleWorld ["a/b/x.tex"])).rm = [("x.tex", 100)])
    ∧ (FindFileInPath "b/x.tex" sampleManager (sampleWorld ["a/b/x.tex"])).value = "a/b/x.tex"
    ∧ (FindFileInPath "x.tex" sampleManager (sampleWorld ["a/b/x.tex"])).value = "a/b/x.tex"
    ∧ (cacheOf Kind.Texture
        (CreateK sampleHelpers Kind.Texture "x.tex"
          (CreateK sampleHelpers Kind.Texture "b/x.tex" sampleManager
            (sampleWorld ["a/b/x.tex"])).rm
          (CreateK sampleHelpers Kind.Texture "b/x.tex" sampleManager
            (sampleWorld ["a/b/x.tex"])).world).rm).length = 2
    ∧ (∃ i P, selectedPlugin sampleHelpers Kind.Texture "x.tex" sampleManager = some (i, P)) :=
  ⟨⟨((created_handle_is_cached_under_requested_name sampleHelpers Kind.Texture sampleManager
        (sampleWorld ["a/b/x.tex"])).2.1 "x.tex" 0 (countingPlugin "tex" 100) 100
        (by decide) rfl (by decide)).1,
    ((created_handle_is_cached_under_requested_name sampleHelpers Kind.Texture sampleManager
        (sampleWorld ["a/b/x.tex"])).2.1 "x.tex" 0 (countingPlugin "tex" 100) 100
        (by decide) rfl (by decide)).2.1⟩,
    by decide, by decide,
    ((created_handle_is_cached_under_requested_name sampleHelpers Kind.Texture sampleManager
        (sampleWorld ["a/b/x.tex"])).2.2 "b/x.tex" "x.tex" 100 101
        (by decide) (by decide) (by decide) (by decide) (by decide)).2.2.1,
    (created_handle_is_cached_under_requested_name sampleHelpers Kind.Texture sampleManager
        (sampleWorld ["a/b/x.tex"])).1 "x.tex"
        ⟨countingPlugin "tex" 100, List.mem_cons_self _ _, by decide⟩⟩

theorem probeEvents_mem {file : String} {paths : List String} {e : Event}
    (h : e ∈ probeEvents file paths) : ∃ p, e = Event.Exists p := by
  induction paths with
  | nil => simp [probeEvents] at h
  | cons d rest ih =>
    simp only [probeEvents, List.mem_cons] at h
    rcases h with rfl | h
    · exact ⟨_, rfl⟩
    · exact ih h

theorem ambiguityWarnings_mem {file : String} {possibles : List String} {e : Event}
    (h : e ∈ ambiguityWarnings file possibles) : ∃ msg, e = Event.Warning msg := by
  simp only [ambiguityWarnings, List.mem_cons, List.mem_map] at h
  rcases h with rfl | ⟨p, _, rfl⟩
  · exact ⟨_, rfl⟩
  · exact ⟨_, rfl⟩

/-- Path resolution logs probes and warnings only. -/
theorem resolveEvents_mem {σ : Type} {file : String} {rm : ResourceManager σ}
    {fsExists : String → Bool} {e : Event} (h : e ∈ resolveEvents file rm fsExists) :
    (∃ p, e = Event.Exists p) ∨ (∃ msg, e = Event.Warning msg) := by
  unfold resolveEvents at h
  split at h
  · simp at h
  · rcases List.mem_append.mp h with h | h
    · exact Or.inl (probeEvents_mem h)
    · split at h
      · exact Or.inr (ambiguityWarnings_mem h)
      · simp at h

theorem resolveEvents_slot {σ : Type} {file : String} {rm : ResourceManager σ}
    {fsExists : String → Bool} {e : Event} (h : e ∈ resolveEvents file rm fsExists) :
    e.slot = none := by
  rcases resolveEvents_mem h with ⟨p, rfl⟩ | ⟨msg, rfl⟩ <;> rfl

/-- Dispatch on a cache miss: the plug-in right after a non-accepting prefix of
the list does the construction; the call logs the capability queries up to its
slot, then the path resolution, then the construction. -/
theorem CreateK_dispatch {σ : Type} (u : Helpers) (k : Kind) (f : String)
    (rm : ResourceManager σ) (w : World σ)
    (pre : List (IResourcePlugin σ)) (P1 : IResourcePlugin σ) (post : List (IResourcePlugin σ))
    (hmiss : Map.find f (cacheOf k rm) = none)
    (hsplit : pluginsOf k rm = pre ++ P1 :: post)
    (hpre : ∀ p ∈ pre, p.AcceptsExtension (u.ToLower (u.Extension f)) = false)
    (hP1 : P1.AcceptsExtension (u.ToLower (u.Extension f)) = true) :
    (CreateK u k f rm w).value
        = (P1.CreateResource (resolvedPath f rm w.files) w.pluginState).1
    ∧ (CreateK u k f rm w).world.pluginState
        = (P1.CreateResource (resolvedPath f rm w.files) w.pluginState).2
    ∧ (CreateK u k f rm w).world.log
        = w.log ++ ((List.range' 0 (pre.length + 1)).map
              (fun j => Event.AcceptsExtension k j (u.ToLower (u.Extension f)))
            ++ (resolveEvents f rm w.files
              ++ [Event.CreateResource k pre.length (resolvedPath f rm w.files)])) := by
  have hscan := scanPlugins_first k (u.ToLower (u.Extension f)) pre P1 post 0 hpre hP1
  rw [← hsplit, Nat.zero_add] at hscan
  have hsel : selectedPlugin u k f rm = some (pre.length, P1) := by
    simp [selectedPlugin, lowerExt, hscan]
  have hev : scanEvents u k f rm
      = (List.range' 0 (pre.length + 1)).map
          (fun j => Event.AcceptsExtension k j (u.ToLower (u.Extension f))) := by
    simp [scanEvents, lowerExt, hscan]
  cases hc : (P1.CreateResource (resolvedPath f rm w.files) w.pluginState).1 with
  | ok h =>
    rw [CreateK_loaded u w hmiss hsel hc, hev]
    simp
  | error e =>
    rw [CreateK_failed u w hmiss hsel hc, hev]
    simp

theorem queries_no_construction (k : Kind) (ext : String) (i n : Nat) :
    ((List.range' i n).map (fun j => Event.AcceptsExtension k j ext)).filter
      Event.isConstruction = [] := by
  rw [List.filter_eq_nil_iff]
  intro e he
  obtain ⟨j, _, rfl⟩ := List.mem_map.mp he
  simp [Event.isConstruction]

/-- C3. With `f` not resident, let `P1` be the earliest-registered plug-in of
kind `K` that accepts the lowercase extension of `f` (nothing registered before
it accepts).  Then `CreateK(f)` returns what `P1`'s construct operation returns
on the path `FindFileInPath(f)`, the only construction among the calls made is
that one call of `P1`, and no plug-in registered after `P1` (such as a second
accepting plug-in `P2`) is called at all, neither queried nor asked to
construct. -/
theorem first_accepting_plugin_is_used {σ : Type} (u : Helpers) (k : Kind) (f : String)
    (rm : ResourceManager σ) (w : World σ)
    (pre : List (IResourcePlugin σ)) (P1 : IResourcePlugin σ) (post : List (IResourcePlugin σ))
    (hmiss : Map.find f (cacheOf k rm) = none)
    (hsplit : pluginsOf k rm = pre ++ P1 :: post)
    (hpre : ∀ p ∈ pre, p.AcceptsExtension (u.ToLower (u.Extension f)) = false)
    (hP1 : P1.AcceptsExtension (u.ToLower (u.Extension f)) = true) :
    (CreateK u k f rm w).value
        = (P1.CreateResource (FindFileInPath f rm w).value w.pluginState).1
    ∧ (CreateK u k f rm w).world.pluginState
        = (P1.CreateResource (FindFileInPath f rm w).value w.pluginState).2
    ∧ ((CreateK u k f rm w).world.log.drop w.log.length).filter Event.isConstruction
        = [Event.CreateResource k pre.length (FindFileInPath f rm w).value]
    ∧ (∀ j, pre.length < j →
        ∀ e ∈ (CreateK u k f rm w).world.log.drop w.log.length, e.slot ≠ some j) := by
  obtain ⟨hv, hst, hlog⟩ := CreateK_dispatch u k f rm w pre P1 post hmiss hsplit hpre hP1
  rw [FindFileInPath_value]
  refine ⟨hv, hst, ?_, ?_⟩
  · rw [hlog, List.drop_left]
    simp [List.filter_append, queries_no_construction, resolveEvents_no_construction,
      Event.isConstruction]
  · intro j hj e he
    rw [hlog, List.drop_left] at he
    rcases List.mem_append.mp he with he | he
    · obtain ⟨i, hi, rfl⟩ := List.mem_map.mp he
      have := (List.mem_range'_1.mp hi).2
      simp only [Event.slot, ne_eq, Option.some.injEq]
      omega
    · rcases List.mem_append.mp he with he | he
      · simp [resolveEvents_slot he]
      · simp only [List.mem_singleton] at he
        subst he
        simp only [Event.slot, ne_eq, Option.some.injEq]
        omega

theorem first_accepting_plugin_is_used_witness :
    (CreateK sampleHelpers Kind.Texture "x.TEX" priorityManager (sampleWorld ["a/x.TEX"])).value
        = Except.ok 100
    ∧ ((CreateK sampleHelpers Kind.Texture "x.TEX" priorityManager
          (sampleWorld ["a/x.TEX"])).world.log.drop 0).filter Event.isConstruction
        = [Event.CreateResource Kind.Texture 1 "a/x.TEX"]
    ∧ (∀ e ∈ (CreateK sampleHelpers Kind.Texture "x.TEX" priorityManager
          (sampleWorld ["a/x.TEX"])).world.log.drop 0, e.slot ≠ some 2) :=
  ⟨(first_accepting_plugin_is_used sampleHelpers Kind.Texture "x.TEX" priorityManager
      (sampleWorld ["a/x.TEX"]) [countingPlugin "png" 50] (countingPlugin "tex" 100)
      [countingPlugin "tex" 900] (by decide) rfl (by decide) (by decide)).1,
    (first_accepting_plugin_is_used sampleHelpers Kind.Texture "x.TEX" priorityManager
      (sampleWorld ["a/x.TEX"]) [countingPlugin "png" 50] (countingPlugin "tex" 100)
      [countingPlugin "tex" 900] (by decide) rfl (by decide) (by decide)).2.2.1,
    (first_accepting_plugin_is_used sampleHelpers Kind.Texture "x.TEX" priorityManager
      (sampleWorld ["a/x.TEX"]) [countingPlugin "png" 50] (countingPlugin "tex" 100)
      [countingPlugin "tex" 900] (by decide) rfl (by decide) (by decide)).2.2.2 2 (by decide)⟩

@[simp] theorem pluginsOf_AddKPlugin {σ : Type} (k : Kind) (P : IResourcePlugin σ)
    (rm : ResourceManager σ) : pluginsOf k (AddKPlugin k P rm) = pluginsOf k rm ++ [P] := by
  cases k <;> rfl

@[simp] theorem cacheOf_AddKPlugin {σ : Type} (k k' : Kind) (P : IResourcePlugin σ)
    (rm : ResourceManager σ) : cacheOf k' (AddKPlugin k P rm) = cacheOf k' rm := by
  cases k <;> cases k' <;> rfl

@[simp] theorem resolvedPath_AddKPlugin {σ : Type} (k : Kind) (P : IResourcePlugin σ)
    (f : String) (rm : ResourceManager σ) (fsExists : String → Bool) :
    resolvedPath f (AddKPlugin k P rm) fsExists = resolvedPath f rm fsExists := by
  cases k <;> rfl

theorem unsupportedMessage_carries (k : Kind) (f : String) :
    ∃ pfx, unsupportedMessage k f = pfx ++ f := by
  cases k <;> exact ⟨_, rfl⟩

theorem selectedPlugin_none_of_no_accepting {σ : Type} (u : Helpers) (k : Kind) (f : String)
    (rm : ResourceManager σ)
    (hnone : ∀ p ∈ pluginsOf k rm, p.AcceptsExtension (u.ToLower (u.Extension f)) = false) :
    selectedPlugin u k f rm = none :=
  (scanPlugins_none_iff k _ _ 0).mpr hnone

/-- C4, as amended.  With `f` not resident and no registered plug-in of kind `K`
accepting its lowercase extension, `CreateK(f)` throws a `ResourceException`
whose message ends with `f` and leaves every member as it was, so `f` is still
not resident.  If an accepting plug-in `P` is then registered, a repeated
`CreateK(f)` makes exactly one construction, by `P`, and returns what `P`'s
construct operation returns: when that is a handle, the call succeeds and `f`
is resident with it. -/
theorem unsupported_format_then_register {σ : Type} (u : Helpers) (k : Kind) (f : String)
    (rm : ResourceManager σ) (w : World σ)
    (hmiss : Map.find f (cacheOf k rm) = none)
    (hnone : ∀ p ∈ pluginsOf k rm, p.AcceptsExtension (u.ToLower (u.Extension f)) = false) :
    (∃ pfx, (CreateK u k f rm w).value
        = Except.error (Exception.ResourceException (pfx ++ f)))
    ∧ (CreateK u k f rm w).rm = rm
    ∧ Map.find f (cacheOf k (CreateK u k f rm w).rm) = none
    ∧ ∀ (P : IResourcePlugin σ) (w1 : World σ),
        P.AcceptsExtension (u.ToLower (u.Extension f)) = true →
        (CreateK u k f (AddKPlugin k P rm) w1).value
            = (P.CreateResource (FindFileInPath f rm w1).value w1.pluginState).1
        ∧ ((CreateK u k f (AddKPlugin k P rm) w1).world.log.drop w1.log.length).filter
              Event.isConstruction
            = [Event.CreateResource k (pluginsOf k rm).length (FindFileInPath f rm w1).value]
        ∧ ∀ h : Handle,
            (P.CreateResource (FindFileInPath f rm w1).value w1.pluginState).1 = Except.ok h →
            (CreateK u k f (AddKPlugin k P rm) w1).value = Except.ok h
            ∧ Map.find f (cacheOf k (CreateK u k f (AddKPlugin k P rm) w1).rm) = some h := by
  have hsel := selectedPlugin_none_of_no_accepting u k f rm hnone
  have heq := CreateK_unsupported u w hmiss hsel
  obtain ⟨pfx, hpfx⟩ := unsupportedMessage_carries k f
  refine ⟨⟨pfx, by rw [heq, hpfx]⟩, by rw [heq], by rw [heq]; exact hmiss, ?_⟩
  intro P w1 hP
  have hmiss1 : Map.find f (cacheOf k (AddKPlugin k P rm)) = none := by simpa using hmiss
  obtain ⟨hv, _, hlog⟩ := CreateK_dispatch u k f (AddKPlugin k P rm) w1 (pluginsOf k rm) P []
    hmiss1 (by simp) hnone hP
  rw [resolvedPath_AddKPlugin] at hv hlog
  rw [FindFileInPath_value]
  refine ⟨hv, ?_, ?_⟩
  · rw [hlog, List.drop_left]
    simp [List.filter_append, queries_no_construction, resolveEvents_no_construction,
      Event.isConstruction]
  · intro h hok
    have hv1 : (CreateK u k f (AddKPlugin k P rm) w1).value = Except.ok h := by rw [hv, hok]
    exact ⟨hv1, CreateK_returns_resident u k f _ w1 h hv1⟩

theorem unsupported_format_then_register_witness :
    (∃ pfx, (CreateK sampleHelpers Kind.Model "a.xyz" sampleManager (sampleWorld [])).value
        = Except.error (Exception.ResourceException (pfx ++ "a.xyz")))
    ∧ (CreateK sampleHelpers Kind.Model "a.xyz" sampleManager (sampleWorld [])).rm = sampleManager
    ∧ ((CreateK sampleHelpers Kind.Model "a.xyz"
          (AddKPlugin Kind.Model (countingPlugin "xyz" 700) sampleManager)
          (sampleWorld [])).value = Except.ok 700
      ∧ Map.find "a.xyz" (cacheOf Kind.Model (CreateK sampleHelpers Kind.Model "a.xyz"
          (AddKPlugin Kind.Model (countingPlugin "xyz" 700) sampleManager)
          (sampleWorld [])).rm) = some 700) :=
  ⟨(unsupported_format_then_register sampleHelpers Kind.Model "a.xyz" sampleManager
      (sampleWorld []) (by decide) (by decide)).1,
    (unsupported_format_then_register sampleHelpers Kind.Model "a.xyz" sampleManager
      (sampleWorld []) (by decide) (by decide)).2.1,
    ((unsupported_format_then_register sampleHelpers Kind.Model "a.xyz" sampleManager
      (sampleWorld []) (by decide) (by decide)).2.2.2 (countingPlugin "xyz" 700) (sampleWorld [])
      (by decide)).2.2 700 (by decide)⟩

/-- C4, as stated, fails: `a.xyz` is not resident and no model plug-in accepts
`xyz`, so `CreateModel` throws; a plug-in accepting `xyz` is then registered,
and the repeated `CreateModel` still does not succeed, because that plug-in's
construct operation throws. -/
theorem unsupported_format_then_register_counterexample :
    Map.find "a.xyz" sampleManager.models = none
    ∧ (∀ p ∈ sampleManager.modelPlugins,
        p.AcceptsExtension (sampleToLower (sampleExtension "a.xyz")) = false)
    ∧ (failingPlugin "xyz").AcceptsExtension (sampleToLower (sampleExtension "a.xyz")) = true
    ∧ ¬ ∃ h : Handle,
        (CreateModel sampleHelpers "a.xyz"
          (AddModelPlugin (failingPlugin "xyz")
            (CreateModel sampleHelpers "a.xyz" sampleManager (sampleWorld [])).rm)
          (CreateModel sampleHelpers "a.xyz" sampleManager (sampleWorld [])).world).value
          = Except.ok h := by
  refine ⟨by decide, by decide, by decide, ?_⟩
  have hv : (CreateModel sampleHelpers "a.xyz"
      (AddModelPlugin (failingPlugin "xyz")
        (CreateModel sampleHelpers "a.xyz" sampleManager (sampleWorld [])).rm)
      (CreateModel sampleHelpers "a.xyz" sampleManager (sampleWorld [])).world).value
      = Except.error (Exception.PluginException "") := by decide
  rintro ⟨h, hh⟩
  rw [hv] at hh
  cases hh

/-! ## The probing loop -/

theorem collectPossibles_eq_nil_iff (fsExists : String → Bool) (file : String)
    (paths : List String) :
    collectPossibles fsExists file paths = [] ↔ ∀ d ∈ paths, fsExists (d ++ file) = false := by
  induction paths with
  | nil => simp [collectPossibles]
  | cons d rest ih =>
    by_cases hd : fsExists (d ++ file) = true
    · simp [collectPossibles, hd]
    · simp [collectPossibles, hd, ih]

/-- The head of `possibles` is built from the first search directory under
which the file exists. -/
theorem collectPossibles_of_find (fsExists : String → Bool) (file : String)
    (paths : List String) (d0 : String)
    (h : paths.find? (fun d => fsExists (d ++ file)) = some d0) :
    ∃ more, collectPossibles fsExists file paths = (d0 ++ file) :: more := by
  induction paths with
  | nil => simp at h
  | cons d rest ih =>
    by_cases hd : fsExists (d ++ file) = true
    · simp only [List.find?_cons, hd, Option.some.injEq] at h
      subst h
      exact ⟨collectPossibles fsExists file rest, by simp [collectPossibles, hd]⟩
    · simp only [List.find?_cons, hd] at h
      obtain ⟨more, hmore⟩ := ih h
      exact ⟨more, by simp [collectPossibles, hd, hmore]⟩

theorem find_first_existing (fsExists : String → Bool) (file : String) (paths : List String)
    (h : ∃ d ∈ paths, fsExists (d ++ file) = true) :
    ∃ d0, paths.find? (fun d => fsExists (d ++ file)) = some d0 := by
  cases hf : paths.find? (fun d => fsExists (d ++ file)) with
  | some d0 => exact ⟨d0, rfl⟩
  | none =>
    obtain ⟨d, hd, hex⟩ := h
    have := List.find?_eq_none.mp hf d hd
    simp [hex] at this

/-- A cache miss with a candidate: the answer and the new path cache. -/
theorem FindFileInPath_found {σ : Type} (file : String) (rm : ResourceManager σ) (w : World σ)
    (p : String) (more : List String)
    (habs : Map.find file rm.pathcache = none)
    (hposs : collectPossibles w.files file rm.paths = p :: more) :
    (FindFileInPath file rm w).value = p
    ∧ (FindFileInPath file rm w).rm
        = { rm with pathcache := Map.insert file p rm.pathcache } := by
  rw [FindFileInPath_value, FindFileInPath_rm]
  simp [resolvedPath, firstPossible, afterResolve, resolvedCache, habs, hposs]

/-- C5. With `f` absent from the path cache and at least one search directory
`d` for which `d + f` exists, there is a first such directory `d0` in list
order, `FindFileInPath(f)` returns `d0 + f`, and the path cache afterwards is
the old one with exactly `f -> d0 + f` inserted (no other member changes);
this holds whether one candidate exists or several. -/
theorem first_existing_candidate_is_returned_and_cached {σ : Type} (f : String)
    (rm : ResourceManager σ) (w : World σ)
    (habs : Map.find f rm.pathcache = none)
    (hex : ∃ d ∈ rm.paths, w.files (d ++ f) = true) :
    ∃ d0, rm.paths.find? (fun d => w.files (d ++ f)) = some d0
      ∧ (FindFileInPath f rm w).value = d0 ++ f
      ∧ (FindFileInPath f rm w).rm
          = { rm with pathcache := Map.insert f (d0 ++ f) rm.pathcache }
      ∧ Map.find f (FindFileInPath f rm w).rm.pathcache = some (d0 ++ f)
      ∧ ∀ g, g ≠ f →
          Map.find g (FindFileInPath f rm w).rm.pathcache = Map.find g rm.pathcache := by
  obtain ⟨d0, hd0⟩ := find_first_existing w.files f rm.paths hex
  obtain ⟨more, hmore⟩ := collectPossibles_of_find w.files f rm.paths d0 hd0
  obtain ⟨hv, hrm⟩ := FindFileInPath_found f rm w (d0 ++ f) more habs hmore
  refine ⟨d0, hd0, hv, hrm, ?_, ?_⟩
  · rw [hrm]
    exact Map.find_insert_self _ _ _
  · intro g hg
    rw [hrm]
    exact Map.find_insert_of_ne _ _ (Ne.symm hg)

theorem first_existing_candidate_is_returned_and_cached_witness :
    (∃ d ∈ sampleManager.paths, (sampleWorld ["a/x.tex", "a/b/x.tex"]).files (d ++ "x.tex") = true)
    ∧ ∃ d0, sampleManager.paths.find?
          (fun d => (sampleWorld ["a/x.tex", "a/b/x.tex"]).files (d ++ "x.tex")) = some d0
      ∧ (FindFileInPath "x.tex" sampleManager (sampleWorld ["a/x.tex", "a/b/x.tex"])).value
          = d0 ++ "x.tex"
      ∧ (FindFileInPath "x.tex" sampleManager (sampleWorld ["a/x.tex", "a/b/x.tex"])).rm
          = { sampleManager with
              pathcache := Map.insert "x.tex" (d0 ++ "x.tex") sampleManager.pathcache }
      ∧ Map.find "x.tex"
          (FindFileInPath "x.tex" sampleManager
            (sampleWorld ["a/x.tex", "a/b/x.tex"])).rm.pathcache = some (d0 ++ "x.tex")
      ∧ ∀ g, g ≠ "x.tex" →
          Map.find g (FindFileInPath "x.tex" sampleManager
            (sampleWorld ["a/x.tex", "a/b/x.tex"])).rm.pathcache
            = Map.find g sampleManager.pathcache :=
  ⟨⟨"a/", by decide, by decide⟩,
    first_existing_candidate_is_returned_and_cached "x.tex" sampleManager
      (sampleWorld ["a/x.tex", "a/b/x.tex"]) (by decide) ⟨"a/", by decide, by decide⟩⟩

/-! ## Path-cache permanence -/

theorem CreateK_keeps_pathcache {σ : Type} (u : Helpers) (k : Kind) (filename g p : String)
    (rm : ResourceManager σ) (w : World σ) (h : Map.find g rm.pathcache = some p) :
    Map.find g (CreateK u k filename rm w).rm.pathcache = some p := by
  rw [CreateK_eq]
  split
  · exact h
  · split
    · split
      · simp only [pathcache_setCache, afterResolve]
        exact resolvedCache_keeps filename rm w.files h
      · simp only [afterResolve]
        exact resolvedCache_keeps filename rm w.files h
    · exact h

/-- No call, `Shutdown` included, removes or changes a path-cache entry. -/
theorem step_keeps_pathcache {σ : Type} (u : Helpers) (op : Op σ) (c : Config σ)
    (g p : String) (h : Map.find g c.rm.pathcache = some p) :
    Map.find g (step u op c).rm.pathcache = some p := by
  cases op with
  | CreateTexture f => exact CreateK_keeps_pathcache u Kind.Texture f g p c.rm c.world h
  | CreateModel f => exact CreateK_keeps_pathcache u Kind.Model f g p c.rm c.world h
  | CreateShader f => exact CreateK_keeps_pathcache u Kind.Shader f g p c.rm c.world h
  | FindFileInPath f =>
    simp only [step, Ret.config, FindFileInPath_rm, afterResolve]
    exact resolvedCache_keeps f c.rm c.world.files h
  | CreateScript l =>
    simp only [step, Ret.config, CreateScript]
    split <;> exact h
  | _ => exact h

theorem run_keeps_pathcache {σ : Type} (u : Helpers) (ops : List (Op σ)) (c : Config σ)
    (g p : String) (h : Map.find g c.rm.pathcache = some p) :
    Map.find g (run u ops c).rm.pathcache = some p := by
  induction ops generalizing c with
  | nil => exact h
  | cons op ops ih => exact ih (step u op c) (step_keeps_pathcache u op c g p h)

/-- C6. Once `f` is in the path cache with value `p`, then after any sequence
of calls whatsoever (`AppendPath`, `PrependPath`, registrations, creations,
look-ups, `Shutdown`, changes of the files on disk) `FindFileInPath(f)` returns
`p` and leaves the members and the world as they were: nothing is logged, so no
file is probed. -/
theorem path_cache_entry_is_permanent {σ : Type} (u : Helpers) (f p : String) (c : Config σ)
    (ops : List (Op σ)) (h : Map.find f c.rm.pathcache = some p) :
    FindFileInPath f (run u ops c).rm (run u ops c).world
      = ⟨p, (run u ops c).rm, (run u ops c).world⟩ :=
  FindFileInPath_hit _ (run_keeps_pathcache u ops c f p h)

theorem path_cache_entry_is_permanent_witness :
    Map.find "x.tex" (FindFileInPath "x.tex" sampleManager
        (sampleWorld ["a/b/x.tex", "z/x.tex"])).config.rm.pathcache = some "a/b/x.tex"
    ∧ (FindFileInPath "x.tex"
        (run sampleHelpers (sampleCalls ++ [Op.Shutdown, Op.PrependPath "z/"])
          (FindFileInPath "x.tex" sampleManager
            (sampleWorld ["a/b/x.tex", "z/x.tex"])).config).rm
        (run sampleHelpers (sampleCalls ++ [Op.Shutdown, Op.PrependPath "z/"])
          (FindFileInPath "x.tex" sampleManager
            (sampleWorld ["a/b/x.tex", "z/x.tex"])).config).world).value = "a/b/x.tex" :=
  ⟨by decide,
    congrArg Ret.value
      (path_cache_entry_is_permanent sampleHelpers "x.tex" "a/b/x.tex"
        (FindFileInPath "x.tex" sampleManager (sampleWorld ["a/b/x.tex", "z/x.tex"])).config
        (sampleCalls ++ [Op.Shutdown, Op.PrependPath "z/"]) (by decide))⟩

/-! ## Unresolved names -/

theorem probeEvents_filter_probe (file : String) (paths : List String) :
    (probeEvents file paths).filter Event.isProbe = probeEvents file paths := by
  induction paths with
  | nil => rfl
  | cons d rest ih => simp [probeEvents, Event.isProbe, ih]

theorem ambiguityWarnings_filter_probe (file : String) (possibles : List String) :
    (ambiguityWarnings file possibles).filter Event.isProbe = [] := by
  rw [List.filter_eq_nil_iff]
  intro e he
  obtain ⟨msg, rfl⟩ := ambiguityWarnings_mem he
  simp [Event.isProbe]

theorem resolveEvents_filter_probe {σ : Type} (file : String) (rm : ResourceManager σ)
    (fsExists : String → Bool) (habs : Map.find file rm.pathcache = none) :
    (resolveEvents file rm fsExists).filter Event.isProbe = probeEvents file rm.paths := by
  simp only [resolveEvents, habs]
  split <;> simp [List.filter_append, probeEvents_filter_probe, ambiguityWarnings_filter_probe]

/-- C7. With `f` absent from the path cache and no search directory `d` for
which `d + f` exists (for instance an empty search path), `FindFileInPath(f)`
returns the empty string and changes no member, the path cache included; it
has probed once per search directory.  The miss is not memoized: a later
query, whatever the files then are, probes every search directory again. -/
theorem missing_file_is_not_memoized {σ : Type} (f : String) (rm : ResourceManager σ)
    (w : World σ) (habs : Map.find f rm.pathcache = none)
    (hnone : ∀ d ∈ rm.paths, w.files (d ++ f) = false) :
    (FindFileInPath f rm w).value = ""
    ∧ (FindFileInPath f rm w).rm = rm
    ∧ (FindFileInPath f rm w).world.log = w.log ++ probeEvents f rm.paths
    ∧ ∀ w2 : World σ,
        ((FindFileInPath f (FindFileInPath f rm w).rm w2).world.log.drop w2.log.length).filter
            Event.isProbe
          = probeEvents f rm.paths := by
  have hnil := (collectPossibles_eq_nil_iff w.files f rm.paths).mpr hnone
  have hrm : (FindFileInPath f rm w).rm = rm := by
    rw [FindFileInPath_rm]
    simp [afterResolve, resolvedCache, habs, hnil]
  refine ⟨?_, hrm, ?_, ?_⟩
  · rw [FindFileInPath_value]
    simp [resolvedPath, firstPossible, habs, hnil]
  · rw [FindFileInPath_world]
    simp [World.emit, resolveEvents, habs, hnil]
  · intro w2
    rw [hrm, FindFileInPath_world]
    simp only [World.emit, List.drop_left]
    exact resolveEvents_filter_probe f rm w2.files habs

theorem missing_file_is_not_memoized_witness :
    (FindFileInPath "y.tex" sampleManager (sampleWorld ["a/x.tex"])).value = ""
    ∧ (FindFileInPath "y.tex" sampleManager (sampleWorld ["a/x.tex"])).rm = sampleManager
    ∧ (FindFileInPath "y.tex" sampleManager (sampleWorld ["a/x.tex"])).world.log
        = [Event.Exists "a/y.tex", Event.Exists "a/b/y.tex"]
    ∧ ((FindFileInPath "y.tex"
          (FindFileInPath "y.tex" sampleManager (sampleWorld ["a/x.tex"])).rm
          (sampleWorld ["a/y.tex"])).world.log.drop 0).filter Event.isProbe
        = [Event.Exists "a/y.tex", Event.Exists "a/b/y.tex"] :=
  ⟨(missing_file_is_not_memoized "y.tex" sampleManager (sampleWorld ["a/x.tex"])
      (by decide) (by decide)).1,
    (missing_file_is_not_memoized "y.tex" sampleManager (sampleWorld ["a/x.tex"])
      (by decide) (by decide)).2.1,
    (missing_file_is_not_memoized "y.tex" sampleManager (sampleWorld ["a/x.tex"])
      (by decide) (by decide)).2.2.1,
    (missing_file_is_not_memoized "y.tex" sampleManager (sampleWorld ["a/x.tex"])
      (by decide) (by decide)).2.2.2 (sampleWorld ["a/y.tex"])⟩

/-! ## Ambiguous names -/

theorem probeEvents_filter_warning (file : String) (paths : List String) :
    (probeEvents file paths).filter Event.isWarning = [] := by
  rw [List.filter_eq_nil_iff]
  intro e he
  obtain ⟨p, rfl⟩ := probeEvents_mem he
  simp [Event.isWarning]

/-- C8. Let the search path be `[A, B]`, let `A + x` and `B + x` both exist and
let `x` be absent from the path cache.  The first `FindFileInPath(x)` returns
`A + x` and appends to the log the two probes followed by the warning records:
the heading naming `x`, then `A + x`, then `B + x`.  Every later
`FindFileInPath(x)`, after any sequence of calls, returns `A + x` and leaves
the log as it is, so the warning is written once.  A look-up of an uncached
name with exactly one candidate writes no warning record. -/
theorem ambiguity_is_warned_once {σ : Type} (u : Helpers) (A B x : String)
    (rm : ResourceManager σ) (w : World σ)
    (hpaths : rm.paths = [A, B])
    (hA : w.files (A ++ x) = true) (hB : w.files (B ++ x) = true)
    (habs : Map.find x rm.pathcache = none) :
    (FindFileInPath x rm w).value = A ++ x
    ∧ (FindFileInPath x rm w).world.log
        = w.log ++ [Event.Exists (A ++ x), Event.Exists (B ++ x),
            Event.Warning ("Found more then one file matching the name given: " ++ x),
            Event.Warning (A ++ x), Event.Warning (B ++ x)]
    ∧ (∀ ops : List (Op σ),
        FindFileInPath x (run u ops (FindFileInPath x rm w).config).rm
            (run u ops (FindFileInPath x rm w).config).world
          = ⟨A ++ x, (run u ops (FindFileInPath x rm w).config).rm,
              (run u ops (FindFileInPath x rm w).config).world⟩)
    ∧ (∀ (f : String) (rm1 : ResourceManager σ) (w1 : World σ),
        Map.find f rm1.pathcache = none →
        (collectPossibles w1.files f rm1.paths).length = 1 →
        ((FindFileInPath f rm1 w1).world.log.drop w1.log.length).filter Event.isWarning
          = []) := by
  have hposs : collectPossibles w.files x rm.paths = [A ++ x, B ++ x] := by
    simp [hpaths, collectPossibles, hA, hB]
  obtain ⟨hv, hrm⟩ := FindFileInPath_found x rm w (A ++ x) [B ++ x] habs hposs
  refine ⟨hv, ?_, ?_, ?_⟩
  · rw [FindFileInPath_world]
    simp only [World.emit, resolveEvents, habs, hposs]
    simp [hpaths, probeEvents, ambiguityWarnings]
  · intro ops
    apply FindFileInPath_hit
    apply run_keeps_pathcache
    simp only [Ret.config, hrm]
    exact Map.find_insert_self _ _ _
  · intro f rm1 w1 habs1 hone
    rw [FindFileInPath_world]
    simp [World.emit, resolveEvents, habs1, hone, probeEvents_filter_warning]

theorem ambiguity_is_warned_once_witness :
    (FindFileInPath "x.tex" sampleManager (sampleWorld ["a/x.tex", "a/b/x.tex"])).value
        = "a/x.tex"
    ∧ (FindFileInPath "x.tex" sampleManager (sampleWorld ["a/x.tex", "a/b/x.tex"])).world.log
        = [Event.Exists "a/x.tex", Event.Exists "a/b/x.tex",
            Event.Warning "Found more then one file matching the name given: x.tex",
            Event.Warning "a/x.tex", Event.Warning "a/b/x.tex"]
    ∧ (FindFileInPath "x.tex"
        (run sampleHelpers sampleCalls (FindFileInPath "x.tex" sampleManager
          (sampleWorld ["a/x.tex", "a/b/x.tex"])).config).rm
        (run sampleHelpers sampleCalls (FindFileInPath "x.tex" sampleManager
          (sampleWorld ["a/x.tex", "a/b/x.tex"])).config).world).world.log
        = (run sampleHelpers sampleCalls (FindFileInPath "x.tex" sampleManager
          (sampleWorld ["a/x.tex", "a/b/x.tex"])).config).world.log
    ∧ ((FindFileInPath "x.tex" sampleManager (sampleWorld ["a/b/x.tex"])).world.log.drop
          0).filter Event.isWarning = [] :=
  ⟨(ambiguity_is_warned_once sampleHelpers "a/" "a/b/" "x.tex" sampleManager
      (sampleWorld ["a/x.tex", "a/b/x.tex"]) rfl (by decide) (by decide) (by decide)).1,
    (ambiguity_is_warned_once sampleHelpers "a/" "a/b/" "x.tex" sampleManager
      (sampleWorld ["a/x.tex", "a/b/x.tex"]) rfl (by decide) (by decide) (by decide)).2.1,
    congrArg (fun r => r.world.log)
      ((ambiguity_is_warned_once sampleHelpers "a/" "a/b/" "x.tex" sampleManager
        (sampleWorld ["a/x.tex", "a/b/x.tex"]) rfl (by decide) (by decide) (by decide)).2.2.1
        sampleCalls),
    (ambiguity_is_warned_once sampleHelpers "a/" "a/b/" "x.tex" sampleManager
      (sampleWorld ["a/x.tex", "a/b/x.tex"]) rfl (by decide) (by decide) (by decide)).2.2.2
      "x.tex" sampleManager (sampleWorld ["a/b/x.tex"]) (by decide) (by decide)⟩

/-! ## Script resources -/

theorem scanScriptPlugins_none_iff {σ : Type} (language : String)
    (ps : List (IScriptResourcePlugin σ)) (i : Nat) :
    scanScriptPlugins language ps i = none ↔ ∀ p ∈ ps, p.RunsLanguage language = false := by
  induction ps generalizing i with
  | nil => simp [scanScriptPlugins]
  | cons p rest ih =>
    by_cases hp : p.RunsLanguage language = true
    · simp [scanScriptPlugins, hp]
    · simp [scanScriptPlugins, hp, ih]

theorem scanScriptPlugins_first {σ : Type} (language : String)
    (pre : List (IScriptResourcePlugin σ)) (P : IScriptResourcePlugin σ)
    (post : List (IScriptResourcePlugin σ)) (i : Nat)
    (hpre : ∀ p ∈ pre, p.RunsLanguage language = false)
    (hP : P.RunsLanguage language = true) :
    scanScriptPlugins language (pre ++ P :: post) i = some (i + pre.length, P) := by
  induction pre generalizing i with
  | nil => simp [scanScriptPlugins, hP]
  | cons p rest ih =>
    have hp : p.RunsLanguage language = false := hpre p (List.mem_cons_self _ _)
    have hrest : ∀ q ∈ rest, q.RunsLanguage language = false :=
      fun q hq => hpre q (List.mem_cons_of_mem _ hq)
    rw [List.cons_append]
    simp only [scanScriptPlugins, hp, ih (i + 1) hrest]
    simp only [Bool.false_eq_true, if_false, List.length_cons, Option.some.injEq,
      Prod.mk.injEq, and_true]
    omega

theorem scanScriptPlugins_some {σ : Type} (language : String)
    (ps : List (IScriptResourcePlugin σ)) (i j : Nat) (P : IScriptResourcePlugin σ)
    (h : scanScriptPlugins language ps i = some (j, P)) :
    P ∈ ps ∧ P.RunsLanguage language = true := by
  induction ps generalizing i with
  | nil => simp [scanScriptPlugins] at h
  | cons p rest ih =>
    by_cases hp : p.RunsLanguage language = true
    · simp only [scanScriptPlugins, hp, if_true, Option.some.injEq, Prod.mk.injEq] at h
      obtain ⟨_, rfl⟩ := h
      exact ⟨List.mem_cons_self _ _, hp⟩
    · simp only [scanScriptPlugins, hp] at h
      obtain ⟨hmem, hruns⟩ := ih (i + 1) h
      exact ⟨List.mem_cons_of_mem _ hmem, hruns⟩

/-- `CreateScript` when the scan selects slot `i`. -/
theorem CreateScript_selected {σ : Type} (language : String) (rm : ResourceManager σ)
    (w : World σ) (i : Nat) (P : IScriptResourcePlugin σ)
    (hsel : scanScriptPlugins language rm.scriptPlugins 0 = some (i, P)) :
    CreateScript language rm w
      = ⟨(P.CreateResource w.pluginState).1, rm,
          ⟨w.files, (P.CreateResource w.pluginState).2,
            w.log ++ [Event.CreateScriptResource i]⟩⟩ := by
  simp [CreateScript, hsel, World.emit]

/-- C9. When some registered script plug-in runs `l`, let `P` be the
earliest-registered one.  `CreateScript(l)` calls `P`'s parameterless construct
operation once, returns its result and changes no member: nothing is stored.
A second `CreateScript(l)` therefore calls the construct operation a second
time, on the plug-in state the first call left, and returns that second
result; two constructions are logged. -/
theorem script_resource_is_constructed_on_every_call {σ : Type} (l : String)
    (rm : ResourceManager σ) (w : World σ)
    (pre : List (IScriptResourcePlugin σ)) (P : IScriptResourcePlugin σ)
    (post : List (IScriptResourcePlugin σ))
    (hsplit : rm.scriptPlugins = pre ++ P :: post)
    (hpre : ∀ p ∈ pre, p.RunsLanguage l = false)
    (hP : P.RunsLanguage l = true) :
    CreateScript l rm w
        = ⟨(P.CreateResource w.pluginState).1, rm,
            ⟨w.files, (P.CreateResource w.pluginState).2,
              w.log ++ [Event.CreateScriptResource pre.length]⟩⟩
    ∧ CreateScript l (CreateScript l rm w).rm (CreateScript l rm w).world
        = ⟨(P.CreateResource (P.CreateResource w.pluginState).2).1, rm,
            ⟨w.files, (P.CreateResource (P.CreateResource w.pluginState).2).2,
              w.log ++ [Event.CreateScriptResource pre.length,
                Event.CreateScriptResource pre.length]⟩⟩ := by
  have hsel : scanScriptPlugins l rm.scriptPlugins 0 = some (pre.length, P) := by
    rw [hsplit, scanScriptPlugins_first l pre P post 0 hpre hP, Nat.zero_add]
  have h1 := CreateScript_selected l rm w pre.length P hsel
  refine ⟨h1, ?_⟩
  rw [h1, CreateScript_selected l rm _ pre.length P hsel]
  simp

theorem script_resource_is_constructed_on_every_call_witness :
    (CreateScript "lua" scriptManager (sampleWorld [])).value = Except.ok 400
    ∧ (CreateScript "lua" scriptManager (sampleWorld [])).rm = scriptManager
    ∧ (CreateScript "lua" (CreateScript "lua" scriptManager (sampleWorld [])).rm
        (CreateScript "lua" scriptManager (sampleWorld [])).world).value = Except.ok 401
    ∧ (CreateScript "lua" (CreateScript "lua" scriptManager (sampleWorld [])).rm
        (CreateScript "lua" scriptManager (sampleWorld [])).world).world.log
        = [Event.CreateScriptResource 1, Event.CreateScriptResource 1] :=
  ⟨congrArg Ret.value
      (script_resource_is_constructed_on_every_call "lua" scriptManager (sampleWorld [])
        [countingScriptPlugin ["python"] 50] (countingScriptPlugin ["js", "lua"] 400)
        [countingScriptPlugin ["lua"] 900] rfl (by decide) (by decide)).1,
    congrArg Ret.rm
      (script_resource_is_constructed_on_every_call "lua" scriptManager (sampleWorld [])
        [countingScriptPlugin ["python"] 50] (countingScriptPlugin ["js", "lua"] 400)
        [countingScriptPlugin ["lua"] 900] rfl (by decide) (by decide)).1,
    congrArg Ret.value
      (script_resource_is_constructed_on_every_call "lua" scriptManager (sampleWorld [])
        [countingScriptPlugin ["python"] 50] (countingScriptPlugin ["js", "lua"] 400)
        [countingScriptPlugin ["lua"] 900] rfl (by decide) (by decide)).2,
    congrArg (fun r => r.world.log)
      (script_resource_is_constructed_on_every_call "lua" scriptManager (sampleWorld [])
        [countingScriptPlugin ["python"] 50] (countingScriptPlugin ["js", "lua"] 400)
        [countingScriptPlugin ["lua"] 900] rfl (by decide) (by decide)).2⟩

/-- C10, as amended.  Whenever no registered script plug-in runs `l`,
`CreateScript(l)` throws a `ResourceException` whose message ends with `l`;
the script-module list plays no part in the outcome, so this happens even
when a registered module runs `l`.  When some registered script plug-in runs
`l`, the call fails only if the construct operation of a registered plug-in
that runs `l` fails, and then with that operation's error.  In every case the
members are left unchanged. -/
theorem unsupported_language_fails_cleanly {σ : Type} (l : String) (rm : ResourceManager σ)
    (w : World σ) :
    ((∀ p ∈ rm.scriptPlugins, p.RunsLanguage l = false) →
      (CreateScript l rm w).value
        = Except.error (Exception.ResourceException ("Unsupported scripting language: " ++ l)))
    ∧ ((∃ p ∈ rm.scriptPlugins, p.RunsLanguage l = true) →
        ∀ e, (CreateScript l rm w).value = Except.error e →
          ∃ P ∈ rm.scriptPlugins, P.RunsLanguage l = true
            ∧ (P.CreateResource w.pluginState).1 = Except.error e)
    ∧ (CreateScript l rm w).rm = rm
    ∧ (∀ mods : List IScriptModule,
        (CreateScript l { rm with scriptModules := mods } w).value
          = (CreateScript l rm w).value) := by
  refine ⟨?_, ?_, ?_, ?_⟩
  · intro hnone
    have hsel := (scanScriptPlugins_none_iff l rm.scriptPlugins 0).mpr hnone
    simp [CreateScript, hsel]
  · intro hex e he
    cases hsel : scanScriptPlugins l rm.scriptPlugins 0 with
    | none =>
      obtain ⟨p, hp, hruns⟩ := hex
      have := (scanScriptPlugins_none_iff l rm.scriptPlugins 0).mp hsel p hp
      rw [this] at hruns
      cases hruns
    | some ip =>
      obtain ⟨i, P⟩ := ip
      obtain ⟨hmem, hruns⟩ := scanScriptPlugins_some l rm.scriptPlugins 0 i P hsel
      rw [CreateScript_selected l rm w i P hsel] at he
      exact ⟨P, hmem, hruns, he⟩
  · unfold CreateScript
    split <;> rfl
  · intro mods
    unfold CreateScript
    dsimp only
    split <;> rfl

theorem unsupported_language_fails_cleanly_witness :
    (CreateScript "scheme" scriptManager (sampleWorld [])).value
        = Except.error (Exception.ResourceException "Unsupported scripting language: scheme")
    ∧ (∃ m ∈ scriptManager.scriptModules, m.RunsLanguage "scheme" = true)
    ∧ (∃ P ∈ brokenScriptManager.scriptPlugins, P.RunsLanguage "lua" = true
        ∧ (P.CreateResource (sampleWorld []).pluginState).1
          = Except.error (Exception.PluginException "interpreter")) :=
  ⟨(unsupported_language_fails_cleanly "scheme" scriptManager (sampleWorld [])).1 (by decide),
    ⟨⟨1, ["lua", "scheme"]⟩, by decide, by decide⟩,
    (unsupported_language_fails_cleanly "lua" brokenScriptManager (sampleWorld [])).2.1
      ⟨failingScriptPlugin ["lua"], List.mem_cons_self _ _, by decide⟩
      (Exception.PluginException "interpreter") (by decide)⟩

/-- C10, as stated, fails: a registered script plug-in runs `lua`, yet
`CreateScript` fails, because that plug-in's construct operation throws. -/
theorem unsupported_language_counterexample :
    (∃ p ∈ brokenScriptManager.scriptPlugins, p.RunsLanguage "lua" = true)
    ∧ (CreateScript "lua" brokenScriptManager (sampleWorld [])).value
        = Except.error (Exception.PluginException "interpreter") :=
  ⟨⟨failingScriptPlugin ["lua"], List.mem_cons_self _ _, by decide⟩, by decide⟩

/-! ## Script modules -/

theorem runsLanguageLoop_iff (lang : String) (languages : List String) :
    runsLanguageLoop lang languages = true ↔ lang ∈ languages := by
  induction languages with
  | nil => simp [runsLanguageLoop]
  | cons l rest ih =>
    by_cases h : l = lang
    · simp [runsLanguageLoop, h]
    · have h2 : ¬ lang = l := fun e => h e.symm
      simp [runsLanguageLoop, h, h2, ih]

theorem collectModules_eq_filter (language : String) (mods : List IScriptModule) :
    collectModules language mods = mods.filter (fun m => m.RunsLanguage language) := by
  induction mods with
  | nil => rfl
  | cons m rest ih =>
    by_cases h : m.RunsLanguage language = true
    · simp [collectModules, h, ih]
    · simp [collectModules, h, ih]

/-- C11. `GetScriptModules(l)` returns the registered module list filtered by
"runs `l`" (a module runs `l` when `l` is in its language list): exactly the
matching modules, in registration order, each as often as it is registered.
It is the empty sequence when no module matches; the function is total, and
the call changes neither the members nor the world. -/
theorem script_modules_fan_out {σ : Type} (u : Helpers) (l : String) (rm : ResourceManager σ)
    (w : World σ) :
    GetScriptModules l rm = rm.scriptModules.filter (fun m => m.RunsLanguage l)
    ∧ (∀ m : IScriptModule, m.RunsLanguage l = true ↔ l ∈ m.languages)
    ∧ List.Sublist (GetScriptModules l rm) rm.scriptModules
    ∧ (∀ m : IScriptModule, (GetScriptModules l rm).count m
        = if m.RunsLanguage l then rm.scriptModules.count m else 0)
    ∧ ((∀ m ∈ rm.scriptModules, m.RunsLanguage l = false) → GetScriptModules l rm = [])
    ∧ step u (Op.GetScriptModules l) ⟨rm, w⟩ = ⟨rm, w⟩ := by
  have hf : GetScriptModules l rm = rm.scriptModules.filter (fun m => m.RunsLanguage l) :=
    collectModules_eq_filter l rm.scriptModules
  refine ⟨hf, ?_, ?_, ?_, ?_, rfl⟩
  · intro m
    exact runsLanguageLoop_iff l m.languages
  · rw [hf]
    exact List.filter_sublist _
  · intro m
    rw [hf]
    by_cases hm : m.RunsLanguage l = true
    · rw [if_pos hm]
      exact List.count_filter hm
    · rw [if_neg hm]
      apply List.count_eq_zero_of_not_mem
      intro hmem
      exact hm (by simpa using (List.mem_filter.mp hmem).2)
  · intro hnone
    rw [hf, List.filter_eq_nil_iff]
    intro m hm
    simp [hnone m hm]

theorem script_modules_fan_out_witness :
    GetScriptModules "lua" moduleManager
        = [⟨3, ["lua"]⟩, ⟨1, ["lua", "scheme"]⟩, ⟨3, ["lua"]⟩]
    ∧ GetScriptModules "ruby" moduleManager = [] :=
  ⟨(script_modules_fan_out sampleHelpers "lua" moduleManager (sampleWorld [])).1.trans
      (by decide),
    (script_modules_fan_out sampleHelpers "ruby" moduleManager (sampleWorld [])).2.2.2.2.1
      (by decide)⟩

/-! ## Teardown -/

/-- C12. From every state, `Shutdown()` leaves the texture, model and shader
caches empty and the texture, model, shader and script plug-in lists and the
script-module list empty. -/
theorem shutdown_empties_caches_and_registries {σ : Type} (u : Helpers)
    (rm : ResourceManager σ) (w : World σ) :
    (Shutdown rm).textures = [] ∧ (Shutdown rm).models = [] ∧ (Shutdown rm).shaders = []
    ∧ (Shutdown rm).texturePlugins = [] ∧ (Shutdown rm).modelPlugins = []
    ∧ (Shutdown rm).shaderPlugins = [] ∧ (Shutdown rm).scriptPlugins = []
    ∧ (Shutdown rm).scriptModules = []
    ∧ (∀ k, cacheOf k (Shutdown rm) = [] ∧ pluginsOf k (Shutdown rm) = [])
    ∧ (step u Op.Shutdown ⟨rm, w⟩).rm = Shutdown rm :=
  ⟨rfl, rfl, rfl, rfl, rfl, rfl, rfl, rfl, fun k => by cases k <;> exact ⟨rfl, rfl⟩, rfl⟩

/-- Creation never touches a plug-in list. -/
theorem CreateK_pluginsOf {σ : Type} (u : Helpers) (k k' : Kind) (f : String)
    (rm : ResourceManager σ) (w : World σ) :
    pluginsOf k' (CreateK u k f rm w).rm = pluginsOf k' rm := by
  rw [CreateK_eq]
  split
  · rfl
  · split
    · split <;> simp
    · rfl

/-- Creation of one kind never touches the cache of another kind. -/
theorem CreateK_cacheOf_other {σ : Type} (u : Helpers) (k k' : Kind) (hne : k' ≠ k) (f : String)
    (rm : ResourceManager σ) (w : World σ) :
    cacheOf k' (CreateK u k f rm w).rm = cacheOf k' rm := by
  rw [CreateK_eq]
  split
  · rfl
  · split
    · split
      · simp [cacheOf_setCache_of_ne hne]
      · simp
    · rfl

/-- Creation with an empty plug-in list of its kind changes no member. -/
theorem CreateK_no_plugins {σ : Type} (u : Helpers) (k : Kind) (f : String)
    (rm : ResourceManager σ) (w : World σ) (hmiss : Map.find f (cacheOf k rm) = none)
    (hnil : pluginsOf k rm = []) :
    (CreateK u k f rm w).rm = rm
    ∧ (CreateK u k f rm w).value
        = Except.error (Exception.ResourceException (unsupportedMessage k f)) := by
  have hsel : selectedPlugin u k f rm = none := by
    simp [selectedPlugin, hnil, scanPlugins]
  rw [CreateK_unsupported u w hmiss hsel]
  exact ⟨rfl, rfl⟩

/-- With no texture plug-in registered and nothing resident, every call but
`AddTexturePlugin` leaves it so. -/
theorem step_keeps_no_textures {σ : Type} (u : Helpers) (op : Op σ) (c : Config σ)
    (hop : op.isAddTexturePlugin = false)
    (h : c.rm.textures = [] ∧ c.rm.texturePlugins = []) :
    (step u op c).rm.textures = [] ∧ (step u op c).rm.texturePlugins = [] := by
  obtain ⟨hc, hp⟩ := h
  cases op with
  | AddTexturePlugin p => simp [Op.isAddTexturePlugin] at hop
  | CreateTexture f =>
    have hmiss : Map.find f (cacheOf Kind.Texture c.rm) = none := by
      simp [cacheOf, hc, Map.find]
    have := (CreateK_no_plugins u Kind.Texture f c.rm c.world hmiss hp).1
    simp only [CreateK] at this
    simp only [step, Ret.config, this]
    exact ⟨hc, hp⟩
  | CreateModel f =>
    have h1 := CreateK_cacheOf_other u Kind.Model Kind.Texture (by decide) f
      c.rm c.world
    have h2 := CreateK_pluginsOf u Kind.Model Kind.Texture f c.rm c.world
    simp only [CreateK, cacheOf, pluginsOf] at h1 h2
    simp only [step, Ret.config, h1, h2]
    exact ⟨hc, hp⟩
  | CreateShader f =>
    have h1 := CreateK_cacheOf_other u Kind.Shader Kind.Texture (by decide) f
      c.rm c.world
    have h2 := CreateK_pluginsOf u Kind.Shader Kind.Texture f c.rm c.world
    simp only [CreateK, cacheOf, pluginsOf] at h1 h2
    simp only [step, Ret.config, h1, h2]
    exact ⟨hc, hp⟩
  | FindFileInPath f =>
    simp only [step, Ret.config, FindFileInPath_rm, afterResolve]
    exact ⟨hc, hp⟩
  | CreateScript l =>
    simp only [step, Ret.config, CreateScript]
    split <;> exact ⟨hc, hp⟩
  | Shutdown => exact ⟨rfl, rfl⟩
  | _ => exact ⟨hc, hp⟩

theorem run_keeps_no_textures {σ : Type} (u : Helpers) (ops : List (Op σ)) (c : Config σ)
    (hops : ∀ op ∈ ops, op.isAddTexturePlugin = false)
    (h : c.rm.textures = [] ∧ c.rm.texturePlugins = []) :
    (run u ops c).rm.textures = [] ∧ (run u ops c).rm.texturePlugins = [] := by
  induction ops generalizing c with
  | nil => exact h
  | cons op ops ih =>
    exact ih (step u op c) (fun op' hmem => hops op' (List.mem_cons_of_mem _ hmem))
      (step_keeps_no_textures u op c (hops op (List.mem_cons_self _ _)) h)

/-- C13. After `Shutdown()` and any further calls none of which registers a
texture plug-in, `CreateTexture(f)` throws the `ResourceException`
"Unsupported file format: f" and changes no member, whatever was resident
before the `Shutdown()`: a handle that was resident for `f` is not returned. -/
theorem teardown_forgets_residency {σ : Type} (u : Helpers) (f : String)
    (rm : ResourceManager σ) (w : World σ) (ops : List (Op σ))
    (hops : ∀ op ∈ ops, op.isAddTexturePlugin = false) :
    (CreateTexture u f (run u ops ⟨Shutdown rm, w⟩).rm (run u ops ⟨Shutdown rm, w⟩).world).value
        = Except.error (Exception.ResourceException ("Unsupported file format: " ++ f))
    ∧ (CreateTexture u f (run u ops ⟨Shutdown rm, w⟩).rm
          (run u ops ⟨Shutdown rm, w⟩).world).rm
        = (run u ops ⟨Shutdown rm, w⟩).rm := by
  obtain ⟨hc, hp⟩ := run_keeps_no_textures u ops ⟨Shutdown rm, w⟩ hops ⟨rfl, rfl⟩
  have hmiss : Map.find f (cacheOf Kind.Texture (run u ops ⟨Shutdown rm, w⟩).rm) = none := by
    simp [cacheOf, hc, Map.find]
  obtain ⟨h1, h2⟩ := CreateK_no_plugins u Kind.Texture f _ (run u ops ⟨Shutdown rm, w⟩).world
    hmiss hp
  exact ⟨h2, h1⟩

theorem teardown_forgets_residency_witness :
    Map.find "x.tex" usedManager.textures = some 100
    ∧ (CreateTexture sampleHelpers "x.tex"
        (run sampleHelpers [Op.AddModelPlugin (countingPlugin "tex" 7), Op.CreateModel "x.tex"]
          ⟨Shutdown usedManager, sampleWorld ["a/b/x.tex"]⟩).rm
        (run sampleHelpers [Op.AddModelPlugin (countingPlugin "tex" 7), Op.CreateModel "x.tex"]
          ⟨Shutdown usedManager, sampleWorld ["a/b/x.tex"]⟩).world).value
      = Except.error (Exception.ResourceException "Unsupported file format: x.tex") :=
  ⟨by decide,
    (teardown_forgets_residency sampleHelpers "x.tex" usedManager (sampleWorld ["a/b/x.tex"])
      [Op.AddModelPlugin (countingPlugin "tex" 7), Op.CreateModel "x.tex"] (by decide)).1⟩

/-- C14, as amended.  After `Shutdown()` the texture, model and shader caches
are empty, but the filename-to-full-path cache and the search path are exactly
as they were: a look-up after `Shutdown()` of a name memoized before it is
answered from that entry, without probing. -/
theorem shutdown_keeps_path_cache {σ : Type} (rm : ResourceManager σ) :
    (Shutdown rm).textures = [] ∧ (Shutdown rm).models = [] ∧ (Shutdown rm).shaders = []
    ∧ (Shutdown rm).pathcache = rm.pathcache
    ∧ (Shutdown rm).paths = rm.paths
    ∧ (∀ (f p : String) (w : World σ), Map.find f rm.pathcache = some p →
        FindFileInPath f (Shutdown rm) w = ⟨p, Shutdown rm, w⟩) := by
  refine ⟨rfl, rfl, rfl, rfl, rfl, ?_⟩
  intro f p w h
  exact FindFileInPath_hit w h

theorem shutdown_keeps_path_cache_witness :
    FindFileInPath "x.tex" (Shutdown usedManager) (sampleWorld [])
      = ⟨"a/b/x.tex", Shutdown usedManager, sampleWorld []⟩ :=
  (shutdown_keeps_path_cache usedManager).2.2.2.2.2 "x.tex" "a/b/x.tex" (sampleWorld [])
    (by decide)

/-- C14, as stated, fails: the path cache holds the entry for `x.tex` memoized
before `Shutdown()` also after it, and a look-up after `Shutdown()` is answered
from that entry (the file is gone and nothing is probed). -/
theorem shutdown_keeps_path_cache_counterexample :
    (Shutdown usedManager).pathcache = [("x.tex", "a/b/x.tex")]
    ∧ (Shutdown usedManager).pathcache ≠ []
    ∧ (FindFileInPath "x.tex" (Shutdown usedManager) (sampleWorld [])).value = "a/b/x.tex"
    ∧ (FindFileInPath "x.tex" (Shutdown usedManager) (sampleWorld [])).world.log = [] :=
  ⟨by decide, by decide, by decide, by decide⟩

/-! ## Growth of the registries -/

/-- Creation leaves the search path and the script lists alone. -/
theorem CreateK_other_members {σ : Type} (u : Helpers) (k : Kind) (f : String)
    (rm : ResourceManager σ) (w : World σ) :
    (CreateK u k f rm w).rm.paths = rm.paths
    ∧ (CreateK u k f rm w).rm.scriptPlugins = rm.scriptPlugins
    ∧ (CreateK u k f rm w).rm.scriptModules = rm.scriptModules := by
  rw [CreateK_eq]
  split
  · exact ⟨rfl, rfl, rfl⟩
  · split
    · split
      · simp [afterResolve]
      · simp [afterResolve]
    · exact ⟨rfl, rfl, rfl⟩

/-- Creation changes no registry. -/
theorem CreateK_registries {σ : Type} (u : Helpers) (k : Kind) (f : String)
    (rm : ResourceManager σ) (w : World σ) :
    (CreateK u k f rm w).rm.texturePlugins = rm.texturePlugins
    ∧ (CreateK u k f rm w).rm.modelPlugins = rm.modelPlugins
    ∧ (CreateK u k f rm w).rm.shaderPlugins = rm.shaderPlugins
    ∧ (CreateK u k f rm w).rm.scriptPlugins = rm.scriptPlugins
    ∧ (CreateK u k f rm w).rm.scriptModules = rm.scriptModules :=
  ⟨CreateK_pluginsOf u k Kind.Texture f rm w, CreateK_pluginsOf u k Kind.Model f rm w,
    CreateK_pluginsOf u k Kind.Shader f rm w, (CreateK_other_members u k f rm w).2.1,
    (CreateK_other_members u k f rm w).2.2⟩

/-- C15, as amended.  For every call other than `Shutdown` and every state,
each of the four plug-in lists and the module list before the call is a prefix
of the corresponding list after it: the list after is the list before followed
by some (possibly empty) list.  `Shutdown` is the one call that removes
registered plug-ins and modules: it empties all five lists. -/
theorem registries_grow_except_on_shutdown {σ : Type} (u : Helpers) (op : Op σ)
    (c : Config σ) :
    (op.isShutdown = false →
      (∃ t, (step u op c).rm.texturePlugins = c.rm.texturePlugins ++ t)
      ∧ (∃ t, (step u op c).rm.modelPlugins = c.rm.modelPlugins ++ t)
      ∧ (∃ t, (step u op c).rm.shaderPlugins = c.rm.shaderPlugins ++ t)
      ∧ (∃ t, (step u op c).rm.scriptPlugins = c.rm.scriptPlugins ++ t)
      ∧ (∃ t, (step u op c).rm.scriptModules = c.rm.scriptModules ++ t))
    ∧ ((step u Op.Shutdown c).rm.texturePlugins = []
      ∧ (step u Op.Shutdown c).rm.modelPlugins = []
      ∧ (step u Op.Shutdown c).rm.shaderPlugins = []
      ∧ (step u Op.Shutdown c).rm.scriptPlugins = []
      ∧ (step u Op.Shutdown c).rm.scriptModules = []) := by
  refine ⟨?_, rfl, rfl, rfl, rfl, rfl⟩
  intro hop
  have same : ∀ rm1 : ResourceManager σ,
      rm1.texturePlugins = c.rm.texturePlugins → rm1.modelPlugins = c.rm.modelPlugins →
      rm1.shaderPlugins = c.rm.shaderPlugins → rm1.scriptPlugins = c.rm.scriptPlugins →
      rm1.scriptModules = c.rm.scriptModules →
      (∃ t, rm1.texturePlugins = c.rm.texturePlugins ++ t)
      ∧ (∃ t, rm1.modelPlugins = c.rm.modelPlugins ++ t)
      ∧ (∃ t, rm1.shaderPlugins = c.rm.shaderPlugins ++ t)
      ∧ (∃ t, rm1.scriptPlugins = c.rm.scriptPlugins ++ t)
      ∧ (∃ t, rm1.scriptModules = c.rm.scriptModules ++ t) := by
    intro rm1 h1 h2 h3 h4 h5
    exact ⟨⟨[], by simp [h1]⟩, ⟨[], by simp [h2]⟩, ⟨[], by simp [h3]⟩, ⟨[], by simp [h4]⟩,
      ⟨[], by simp [h5]⟩⟩
  cases op with
  | Shutdown => simp [Op.isShutdown] at hop
  | AddTexturePlugin p =>
    exact ⟨⟨[p], rfl⟩, ⟨[], by simp [step, AddTexturePlugin]⟩,
      ⟨[], by simp [step, AddTexturePlugin]⟩, ⟨[], by simp [step, AddTexturePlugin]⟩,
      ⟨[], by simp [step, AddTexturePlugin]⟩⟩
  | AddModelPlugin p =>
    exact ⟨⟨[], by simp [step, AddModelPlugin]⟩, ⟨[p], rfl⟩,
      ⟨[], by simp [step, AddModelPlugin]⟩, ⟨[], by simp [step, AddModelPlugin]⟩,
      ⟨[], by simp [step, AddModelPlugin]⟩⟩
  | AddShaderPlugin p =>
    exact ⟨⟨[], by simp [step, AddShaderPlugin]⟩, ⟨[], by simp [step, AddShaderPlugin]⟩,
      ⟨[p], rfl⟩, ⟨[], by simp [step, AddShaderPlugin]⟩,
      ⟨[], by simp [step, AddShaderPlugin]⟩⟩
  | AddScriptPlugin p =>
    exact ⟨⟨[], by simp [step, AddScriptPlugin]⟩, ⟨[], by simp [step, AddScriptPlugin]⟩,
      ⟨[], by simp [step, AddScriptPlugin]⟩, ⟨[p], rfl⟩,
      ⟨[], by simp [step, AddScriptPlugin]⟩⟩
  | AddScriptModule m =>
    exact ⟨⟨[], by simp [step, AddScriptModule]⟩, ⟨[], by simp [step, AddScriptModule]⟩,
      ⟨[], by simp [step, AddScriptModule]⟩, ⟨[], by simp [step, AddScriptModule]⟩,
      ⟨[m], rfl⟩⟩
  | CreateTexture f =>
    obtain ⟨h1, h2, h3, h4, h5⟩ := CreateK_registries u Kind.Texture f c.rm c.world
    exact same _ h1 h2 h3 h4 h5
  | CreateModel f =>
    obtain ⟨h1, h2, h3, h4, h5⟩ := CreateK_registries u Kind.Model f c.rm c.world
    exact same _ h1 h2 h3 h4 h5
  | CreateShader f =>
    obtain ⟨h1, h2, h3, h4, h5⟩ := CreateK_registries u Kind.Shader f c.rm c.world
    exact same _ h1 h2 h3 h4 h5
  | FindFileInPath f =>
    apply same <;> simp [step, Ret.config, FindFileInPath_rm, afterResolve]
  | CreateScript l =>
    have hrm : (CreateScript l c.rm c.world).rm = c.rm := by
      unfold CreateScript
      split <;> rfl
    apply same <;> simp [step, Ret.config, hrm]
  | _ => exact same _ rfl rfl rfl rfl rfl

theorem registries_grow_except_on_shutdown_witness :
    (∃ t, (step sampleHelpers (Op.AddTexturePlugin (countingPlugin "png" 1))
        ⟨sampleManager, sampleWorld []⟩).rm.texturePlugins = sampleManager.texturePlugins ++ t)
    ∧ (∃ t, (step sampleHelpers (Op.AddTexturePlugin (countingPlugin "png" 1))
        ⟨sampleManager, sampleWorld []⟩).rm.scriptModules = sampleManager.scriptModules ++ t) :=
  ⟨((registries_grow_except_on_shutdown sampleHelpers
      (Op.AddTexturePlugin (countingPlugin "png" 1)) ⟨sampleManager, sampleWorld []⟩).1
      (by decide)).1,
    ((registries_grow_except_on_shutdown sampleHelpers
      (Op.AddTexturePlugin (countingPlugin "png" 1)) ⟨sampleManager, sampleWorld []⟩).1
      (by decide)).2.2.2.2⟩

/-- C15, as stated, fails: `Shutdown` is a call of the public interface, and the
texture plug-in list before it, which holds one plug-in, is not a prefix of the
empty list after it. -/
theorem registries_grow_counterexample :
    sampleManager.texturePlugins.length = 1
    ∧ ¬ ∃ t, (step sampleHelpers Op.Shutdown
        ⟨sampleManager, sampleWorld []⟩).rm.texturePlugins = sampleManager.texturePlugins ++ t := by
  refine ⟨by decide, ?_⟩
  rintro ⟨t, ht⟩
  have hlen := congrArg List.length ht
  simp [step, Shutdown, sampleManager, AddShaderPlugin, AddModelPlugin, AddTexturePlugin,
    AppendPath, ResourceManager.init] at hlen

/-! ## Failing construction -/

theorem cacheOf_congr_pathcache {σ : Type} (k : Kind) (rm : ResourceManager σ)
    (pc : Map String) : cacheOf k { rm with pathcache := pc } = cacheOf k rm := by
  cases k <;> rfl

theorem selectedPlugin_afterResolve {σ : Type} (u : Helpers) (k : Kind) (f g : String)
    (rm : ResourceManager σ) (fsExists : String → Bool) :
    selectedPlugin u k g (afterResolve f rm fsExists) = selectedPlugin u k g rm := by
  simp [selectedPlugin]

/-- The construction a creation call makes on a miss with a selected plug-in:
exactly one, by the selected slot, on the resolved path. -/
theorem CreateK_one_construction {σ : Type} (u : Helpers) (k : Kind) (f : String)
    (rm : ResourceManager σ) (w : World σ) (i : Nat) (P : IResourcePlugin σ)
    (hmiss : Map.find f (cacheOf k rm) = none)
    (hsel : selectedPlugin u k f rm = some (i, P)) :
    (CreateK u k f rm w).value = (P.CreateResource (resolvedPath f rm w.files) w.pluginState).1
    ∧ ((CreateK u k f rm w).world.log.drop w.log.length).filter Event.isConstruction
        = [Event.CreateResource k i (resolvedPath f rm w.files)] := by
  have hfilter : ((w.log ++ scanEvents u k f rm ++ resolveEvents f rm w.files
      ++ [Event.CreateResource k i (resolvedPath f rm w.files)]).drop w.log.length).filter
        Event.isConstruction = [Event.CreateResource k i (resolvedPath f rm w.files)] := by
    simp only [List.append_assoc, List.drop_left, List.filter_append,
      scanEvents_filter_construction, resolveEvents_no_construction]
    simp [Event.isConstruction]
  cases hc : (P.CreateResource (resolvedPath f rm w.files) w.pluginState).1 with
  | ok h =>
    rw [CreateK_loaded u w hmiss hsel hc]
    exact ⟨rfl, hfilter⟩
  | error e =>
    rw [CreateK_failed u w hmiss hsel hc]
    exact ⟨rfl, hfilter⟩

/-- C16. With `f` not resident, when the selected plug-in's construct
operation throws instead of returning a handle, `CreateK(f)` fails with that
exception and stores nothing in any resource cache: the `K` cache after the
call equals the `K` cache before it, so `f` is still not resident.  A later
`CreateK(f)` selects the same plug-in and calls its construct operation
again. -/
theorem failed_construction_is_not_cached {σ : Type} (u : Helpers) (k : Kind) (f : String)
    (rm : ResourceManager σ) (w : World σ) (i : Nat) (P : IResourcePlugin σ) (e : Exception)
    (hmiss : Map.find f (cacheOf k rm) = none)
    (hsel : selectedPlugin u k f rm = some (i, P))
    (herr : (P.CreateResource (FindFileInPath f rm w).value w.pluginState).1
      = Except.error e) :
    (CreateK u k f rm w).value = Except.error e
    ∧ cacheOf k (CreateK u k f rm w).rm = cacheOf k rm
    ∧ (∀ k1, cacheOf k1 (CreateK u k f rm w).rm = cacheOf k1 rm)
    ∧ Map.find f (cacheOf k (CreateK u k f rm w).rm) = none
    ∧ (∀ w2 : World σ,
        selectedPlugin u k f (CreateK u k f rm w).rm = some (i, P)
        ∧ (CreateK u k f (CreateK u k f rm w).rm w2).value
            = (P.CreateResource (FindFileInPath f (CreateK u k f rm w).rm w2).value
                w2.pluginState).1
        ∧ ((CreateK u k f (CreateK u k f rm w).rm w2).world.log.drop w2.log.length).filter
              Event.isConstruction
            = [Event.CreateResource k i
                (FindFileInPath f (CreateK u k f rm w).rm w2).value]) := by
  rw [FindFileInPath_value] at herr
  have heq := CreateK_failed u w hmiss hsel herr
  have hrm : (CreateK u k f rm w).rm = afterResolve f rm w.files := by rw [heq]
  have hcache : ∀ k1, cacheOf k1 (CreateK u k f rm w).rm = cacheOf k1 rm := by
    intro k1
    rw [hrm, cacheOf_afterResolve]
  refine ⟨by rw [heq], hcache k, hcache, by rw [hcache k]; exact hmiss, ?_⟩
  intro w2
  have hmiss2 : Map.find f (cacheOf k (CreateK u k f rm w).rm) = none := by
    rw [hcache k]
    exact hmiss
  have hsel2 : selectedPlugin u k f (CreateK u k f rm w).rm = some (i, P) := by
    rw [hrm, selectedPlugin_afterResolve, hsel]
  obtain ⟨hv, hlog⟩ := CreateK_one_construction u k f _ w2 i P hmiss2 hsel2
  rw [FindFileInPath_value]
  exact ⟨hsel2, hv, hlog⟩

theorem failed_construction_is_not_cached_witness :
    (CreateK sampleHelpers Kind.Texture "x.tex" brokenTextureManager
        (sampleWorld ["a/x.tex"])).value = Except.error (Exception.PluginException "a/x.tex")
    ∧ cacheOf Kind.Texture (CreateK sampleHelpers Kind.Texture "x.tex" brokenTextureManager
        (sampleWorld ["a/x.tex"])).rm = cacheOf Kind.Texture brokenTextureManager
    ∧ ((CreateK sampleHelpers Kind.Texture "x.tex"
          (CreateK sampleHelpers Kind.Texture "x.tex" brokenTextureManager
            (sampleWorld ["a/x.tex"])).rm (sampleWorld ["a/x.tex"])).world.log.drop 0).filter
          Event.isConstruction
        = [Event.CreateResource Kind.Texture 0
            (FindFileInPath "x.tex" (CreateK sampleHelpers Kind.Texture "x.tex"
              brokenTextureManager (sampleWorld ["a/x.tex"])).rm
              (sampleWorld ["a/x.tex"])).value] :=
  ⟨(failed_construction_is_not_cached sampleHelpers Kind.Texture "x.tex" brokenTextureManager
      (sampleWorld ["a/x.tex"]) 0 (failingPlugin "tex") (Exception.PluginException "a/x.tex")
      (by decide) rfl (by decide)).1,
    (failed_construction_is_not_cached sampleHelpers Kind.Texture "x.tex" brokenTextureManager
      (sampleWorld ["a/x.tex"]) 0 (failingPlugin "tex") (Exception.PluginException "a/x.tex")
      (by decide) rfl (by decide)).2.1,
    ((failed_construction_is_not_cached sampleHelpers Kind.Texture "x.tex" brokenTextureManager
      (sampleWorld ["a/x.tex"]) 0 (failingPlugin "tex") (Exception.PluginException "a/x.tex")
      (by decide) rfl (by decide)).2.2.2.2 (sampleWorld ["a/x.tex"])).2.2⟩

/-- How a creation call can fail: either no plug-in is selected and no member
changes, or the selected plug-in throws after the path has been resolved. -/
theorem CreateK_error_cases {σ : Type} (u : Helpers) (k : Kind) (f : String)
    (rm : ResourceManager σ) (w : World σ) (e : Exception)
    (hfail : (CreateK u k f rm w).value = Except.error e) :
    Map.find f (cacheOf k rm) = none
    ∧ ((selectedPlugin u k f rm = none ∧ (CreateK u k f rm w).rm = rm)
      ∨ (∃ i P, selectedPlugin u k f rm = some (i, P)
          ∧ (P.CreateResource (resolvedPath f rm w.files) w.pluginState).1 = Except.error e
          ∧ (CreateK u k f rm w).rm = afterResolve f rm w.files)) := by
  cases hres : Map.find f (cacheOf k rm) with
  | some h0 =>
    rw [CreateK_hit u w hres] at hfail
    cases hfail
  | none =>
    refine ⟨rfl, ?_⟩
    cases hsel : selectedPlugin u k f rm with
    | none =>
      left
      rw [CreateK_unsupported u w hres hsel]
      exact ⟨rfl, rfl⟩
    | some ip =>
      obtain ⟨i, P⟩ := ip
      right
      cases hc : (P.CreateResource (resolvedPath f rm w.files) w.pluginState).1 with
      | ok h1 =>
        rw [CreateK_loaded u w hres hsel hc] at hfail
        cases hfail
      | error e1 =>
        rw [CreateK_failed u w hres hsel hc] at hfail ⊢
        cases hfail
        exact ⟨i, P, rfl, hc, rfl⟩

/-- C17, as amended.  Whenever `CreateK(f)` fails, at whatever stage, no
resource cache gains an entry: the texture, model and shader caches are
exactly as before the call.  When no plug-in accepts, the path cache too is
unchanged.  When the selected plug-in's construct operation fails, which
happens after path resolution, the members are as `FindFileInPath(f)` left
them: the path cache keeps every entry it had and differs from the old one at
most in the entry for `f`. -/
theorem failure_caches_no_resource {σ : Type} (u : Helpers) (k : Kind) (f : String)
    (rm : ResourceManager σ) (w : World σ) (e : Exception)
    (hfail : (CreateK u k f rm w).value = Except.error e) :
    (CreateK u k f rm w).rm.textures = rm.textures
    ∧ (CreateK u k f rm w).rm.models = rm.models
    ∧ (CreateK u k f rm w).rm.shaders = rm.shaders
    ∧ (selectedPlugin u k f rm = none → (CreateK u k f rm w).rm = rm)
    ∧ (∀ i P, selectedPlugin u k f rm = some (i, P) →
        (CreateK u k f rm w).rm = (FindFileInPath f rm w).rm)
    ∧ (∀ g p, Map.find g rm.pathcache = some p →
        Map.find g (CreateK u k f rm w).rm.pathcache = some p)
    ∧ (∀ g, g ≠ f →
        Map.find g (CreateK u k f rm w).rm.pathcache = Map.find g rm.pathcache) := by
  obtain ⟨_, hcases⟩ := CreateK_error_cases u k f rm w e hfail
  rcases hcases with ⟨hnone, hrm⟩ | ⟨i, P, hsel, _, hrm⟩
  · rw [hrm]
    refine ⟨rfl, rfl, rfl, fun _ => rfl, ?_, fun g p h => h, fun g _ => rfl⟩
    intro i P hsel
    rw [hnone] at hsel
    cases hsel
  · rw [hrm]
    refine ⟨rfl, rfl, rfl, ?_, ?_, ?_, ?_⟩
    · intro hnone
      rw [hnone] at hsel
      cases hsel
    · intro _ _ _
      rw [FindFileInPath_rm]
    · intro g p h
      exact resolvedCache_keeps f rm w.files h
    · intro g hg
      exact resolvedCache_find_of_ne rm w.files (Ne.symm hg)

theorem failure_caches_no_resource_witness :
    (CreateK sampleHelpers Kind.Texture "x.tex" brokenTextureManager
        (sampleWorld ["a/x.tex"])).rm.textures = brokenTextureManager.textures
    ∧ (CreateK sampleHelpers Kind.Texture "x.tex" brokenTextureManager
        (sampleWorld ["a/x.tex"])).rm
      = (FindFileInPath "x.tex" brokenTextureManager (sampleWorld ["a/x.tex"])).rm
    ∧ ((CreateK sampleHelpers Kind.Model "x.tex" brokenTextureManager
        (sampleWorld ["a/x.tex"])).rm = brokenTextureManager) :=
  ⟨(failure_caches_no_resource sampleHelpers Kind.Texture "x.tex" brokenTextureManager
      (sampleWorld ["a/x.tex"]) (Exception.PluginException "a/x.tex") (by decide)).1,
    (failure_caches_no_resource sampleHelpers Kind.Texture "x.tex" brokenTextureManager
      (sampleWorld ["a/x.tex"]) (Exception.PluginException "a/x.tex") (by decide)).2.2.2.2.1
      0 (failingPlugin "tex") rfl,
    (failure_caches_no_resource sampleHelpers Kind.Model "x.tex" brokenTextureManager
      (sampleWorld ["a/x.tex"])
      (Exception.ResourceException "Unsupported file format: x.tex") (by decide)).2.2.2.1 rfl⟩

/-- C17, as stated, fails: `CreateTexture("x.tex")` fails because the selected
plug-in's construct operation throws, yet the path cache, empty before the
call, holds the entry for `x.tex` after it. -/
theorem nothing_cached_on_failure_counterexample :
    (CreateTexture sampleHelpers "x.tex" brokenTextureManager (sampleWorld ["a/x.tex"])).value
        = Except.error (Exception.PluginException "a/x.tex")
    ∧ brokenTextureManager.pathcache = []
    ∧ (CreateTexture sampleHelpers "x.tex" brokenTextureManager
        (sampleWorld ["a/x.tex"])).rm.pathcache = [("x.tex", "a/x.tex")] :=
  ⟨by decide, by decide, by decide⟩

/-- C18. Let `f` be not resident, absent from the path cache and existing
under no search directory, and let some registered plug-in of kind `K` accept
its lowercase extension.  Then path resolution yields the empty string, and
`CreateK(f)` raises no error of its own: it makes one construction, calling the
selected plug-in's construct operation with the empty string as path, and
returns what that operation returns.  When that is a handle `h`, `h` is
returned and stored under `f` in the `K` cache. -/
theorem unresolved_path_is_passed_to_plugin {σ : Type} (u : Helpers) (k : Kind) (f : String)
    (rm : ResourceManager σ) (w : World σ)
    (hmiss : Map.find f (cacheOf k rm) = none)
    (habs : Map.find f rm.pathcache = none)
    (hnofile : ∀ d ∈ rm.paths, w.files (d ++ f) = false)
    (hacc : ∃ p ∈ pluginsOf k rm, p.AcceptsExtension (u.ToLower (u.Extension f)) = true) :
    (FindFileInPath f rm w).value = ""
    ∧ ∃ i P, selectedPlugin u k f rm = some (i, P)
      ∧ (CreateK u k f rm w).value = (P.CreateResource "" w.pluginState).1
      ∧ ((CreateK u k f rm w).world.log.drop w.log.length).filter Event.isConstruction
          = [Event.CreateResource k i ""]
      ∧ ∀ h : Handle, (P.CreateResource "" w.pluginState).1 = Except.ok h →
          (CreateK u k f rm w).value = Except.ok h
          ∧ cacheOf k (CreateK u k f rm w).rm = Map.insert f h (cacheOf k rm)
          ∧ Map.find f (cacheOf k (CreateK u k f rm w).rm) = some h := by
  have hnil := (collectPossibles_eq_nil_iff w.files f rm.paths).mpr hnofile
  have hpath : resolvedPath f rm w.files = "" := by
    simp [resolvedPath, firstPossible, habs, hnil]
  obtain ⟨i, P, hsel⟩ := selectedPlugin_of_accepting u k f rm hacc
  obtain ⟨hv, hlog⟩ := CreateK_one_construction u k f rm w i P hmiss hsel
  rw [hpath] at hv hlog
  refine ⟨by rw [FindFileInPath_value, hpath], i, P, hsel, hv, hlog, ?_⟩
  intro h hok
  have hok1 : (P.CreateResource (resolvedPath f rm w.files) w.pluginState).1 = Except.ok h := by
    rw [hpath, hok]
  rw [CreateK_loaded u w hmiss hsel hok1]
  exact ⟨rfl, by simp, by simp [Map.find_insert_self]⟩

theorem unresolved_path_is_passed_to_plugin_witness :
    (FindFileInPath "y.tex" sampleManager (sampleWorld ["a/x.tex"])).value = ""
    ∧ ∃ i P, selectedPlugin sampleHelpers Kind.Texture "y.tex" sampleManager = some (i, P)
      ∧ (CreateK sampleHelpers Kind.Texture "y.tex" sampleManager
          (sampleWorld ["a/x.tex"])).value = (P.CreateResource "" 0).1
      ∧ ((CreateK sampleHelpers Kind.Texture "y.tex" sampleManager
            (sampleWorld ["a/x.tex"])).world.log.drop 0).filter Event.isConstruction
          = [Event.CreateResource Kind.Texture i ""]
      ∧ ∀ h : Handle, (P.CreateResource "" 0).1 = Except.ok h →
          (CreateK sampleHelpers Kind.Texture "y.tex" sampleManager
            (sampleWorld ["a/x.tex"])).value = Except.ok h
          ∧ cacheOf Kind.Texture (CreateK sampleHelpers Kind.Texture "y.tex" sampleManager
              (sampleWorld ["a/x.tex"])).rm
            = Map.insert "y.tex" h (cacheOf Kind.Texture sampleManager)
          ∧ Map.find "y.tex" (cacheOf Kind.Texture (CreateK sampleHelpers Kind.Texture "y.tex"
              sampleManager (sampleWorld ["a/x.tex"])).rm) = some h :=
  unresolved_path_is_passed_to_plugin sampleHelpers Kind.Texture "y.tex" sampleManager
    (sampleWorld ["a/x.tex"]) (by decide) (by decide) (by decide)
    ⟨countingPlugin "tex" 100, List.mem_cons_self _ _, by decide⟩

/-! ## Search-path order -/

theorem find_first_append_new (fsExists : String → Bool) (f d d0 : String)
    (paths : List String)
    (h : paths.find? (fun d1 => fsExists (d1 ++ f)) = some d0) :
    (paths ++ [d]).find? (fun d1 => fsExists (d1 ++ f)) = some d0 := by
  rw [List.find?_append, h]
  rfl

theorem find_first_append_none (fsExists : String → Bool) (f d : String) (paths : List String)
    (hnone : ∀ d1 ∈ paths, fsExists (d1 ++ f) = false) (hex : fsExists (d ++ f) = true) :
    (paths ++ [d]).find? (fun d1 => fsExists (d1 ++ f)) = some d := by
  have h0 : paths.find? (fun d1 => fsExists (d1 ++ f)) = none := by
    rw [List.find?_eq_none]
    intro x hx
    simp [hnone x hx]
  rw [List.find?_append, h0]
  simp [List.find?_cons, hex]

/-- C19. Let `f` be absent from the path cache and let `d + f` exist.  Right
after `PrependPath(d)`, `FindFileInPath(f)` returns `d + f` whatever the list
held.  Right after `AppendPath(d)`, it returns `d + f` when no directory
already in the list has `f`, and otherwise the path under the first directory
already in the list that has `f`.  `PrependPath` puts `d` in front of the old
list and `AppendPath` behind it, for any string `d`, leaving the old list in
its order. -/
theorem prepend_is_highest_append_is_lowest {σ : Type} (d f : String)
    (rm : ResourceManager σ) (w : World σ)
    (habs : Map.find f rm.pathcache = none) (hex : w.files (d ++ f) = true) :
    (FindFileInPath f (PrependPath d rm) w).value = d ++ f
    ∧ ((∀ d1 ∈ rm.paths, w.files (d1 ++ f) = false) →
        (FindFileInPath f (AppendPath d rm) w).value = d ++ f)
    ∧ (∀ d0, rm.paths.find? (fun d1 => w.files (d1 ++ f)) = some d0 →
        (FindFileInPath f (AppendPath d rm) w).value = d0 ++ f)
    ∧ (PrependPath d rm).paths = d :: rm.paths
    ∧ (AppendPath d rm).paths = rm.paths ++ [d] := by
  refine ⟨?_, ?_, ?_, rfl, rfl⟩
  · have hposs : collectPossibles w.files f (PrependPath d rm).paths
        = (d ++ f) :: collectPossibles w.files f rm.paths := by
      simp [PrependPath, collectPossibles, hex]
    exact (FindFileInPath_found f (PrependPath d rm) w (d ++ f) _ habs hposs).1
  · intro hnone
    have hfind := find_first_append_none w.files f d rm.paths hnone hex
    obtain ⟨more, hmore⟩ := collectPossibles_of_find w.files f (rm.paths ++ [d]) d hfind
    exact (FindFileInPath_found f (AppendPath d rm) w (d ++ f) more habs hmore).1
  · intro d0 hd0
    have hfind := find_first_append_new w.files f d d0 rm.paths hd0
    obtain ⟨more, hmore⟩ := collectPossibles_of_find w.files f (rm.paths ++ [d]) d0 hfind
    exact (FindFileInPath_found f (AppendPath d rm) w (d0 ++ f) more habs hmore).1

theorem prepend_is_highest_append_is_lowest_witness :
    (FindFileInPath "x.tex" (PrependPath "z/" sampleManager)
        (sampleWorld ["a/b/x.tex", "z/x.tex"])).value = "z/" ++ "x.tex"
    ∧ (FindFileInPath "x.tex" (AppendPath "z/" sampleManager)
        (sampleWorld ["a/b/x.tex", "z/x.tex"])).value = "a/b/" ++ "x.tex"
    ∧ (FindFileInPath "x.tex" (AppendPath "z/" sampleManager)
        (sampleWorld ["z/x.tex"])).value = "z/" ++ "x.tex" :=
  ⟨(prepend_is_highest_append_is_lowest "z/" "x.tex" sampleManager
      (sampleWorld ["a/b/x.tex", "z/x.tex"]) (by decide) (by decide)).1,
    (prepend_is_highest_append_is_lowest "z/" "x.tex" sampleManager
      (sampleWorld ["a/b/x.tex", "z/x.tex"]) (by decide) (by decide)).2.2.1 "a/b/" (by decide),
    (prepend_is_highest_append_is_lowest "z/" "x.tex" sampleManager
      (sampleWorld ["z/x.tex"]) (by decide) (by decide)).2.1 (by decide)⟩

/-! ## Membership in the search path -/

theorem isInPathLoop_iff (p : String) (paths : List String) :
    isInPathLoop p paths = true ↔ p ∈ paths := by
  induction paths with
  | nil => simp [isInPathLoop]
  | cons d rest ih =>
    by_cases h : d = p
    · simp [isInPathLoop, h]
    · have h2 : ¬ p = d := fun e => h e.symm
      simp [isInPathLoop, h, h2, ih]

/-- The search path after one call: only `AppendPath` and `PrependPath` change
it. -/
theorem step_paths {σ : Type} (u : Helpers) (op : Op σ) (c : Config σ) :
    (step u op c).rm.paths =
      match op with
      | Op.AppendPath str => c.rm.paths ++ [str]
      | Op.PrependPath str => str :: c.rm.paths
      | _ => c.rm.paths := by
  cases op with
  | CreateTexture f => exact (CreateK_other_members u Kind.Texture f c.rm c.world).1
  | CreateModel f => exact (CreateK_other_members u Kind.Model f c.rm c.world).1
  | CreateShader f => exact (CreateK_other_members u Kind.Shader f c.rm c.world).1
  | FindFileInPath f => simp [step, Ret.config, FindFileInPath_rm, afterResolve]
  | CreateScript l =>
    simp only [step, Ret.config, CreateScript]
    split <;> rfl
  | _ => rfl

theorem mem_step_paths {σ : Type} (u : Helpers) (op : Op σ) (c : Config σ) (p : String) :
    p ∈ (step u op c).rm.paths
      ↔ p ∈ c.rm.paths ∨ op = Op.AppendPath p ∨ op = Op.PrependPath p := by
  rw [step_paths]
  cases op <;> simp
  · constructor
    · rintro (h | h)
      · exact Or.inl h
      · exact Or.inr h.symm
    · rintro (h | h)
      · exact Or.inl h
      · exact Or.inr h.symm
  · constructor
    · rintro (h | h)
      · exact Or.inr h.symm
      · exact Or.inl h
    · rintro (h | h)
      · exact Or.inr h
      · exact Or.inl h.symm

theorem mem_run_paths {σ : Type} (u : Helpers) (ops : List (Op σ)) (c : Config σ) (p : String) :
    p ∈ (run u ops c).rm.paths
      ↔ p ∈ c.rm.paths ∨ Op.AppendPath p ∈ ops ∨ Op.PrependPath p ∈ ops := by
  induction ops generalizing c with
  | nil => simp [run]
  | cons op ops ih =>
    simp only [run, ih, mem_step_paths, List.mem_cons]
    constructor
    · rintro ((h | h | h) | h | h)
      · exact Or.inl h
      · exact Or.inr (Or.inl (Or.inl h.symm))
      · exact Or.inr (Or.inr (Or.inl h.symm))
      · exact Or.inr (Or.inl (Or.inr h))
      · exact Or.inr (Or.inr (Or.inr h))
    · rintro (h | (h | h) | (h | h))
      · exact Or.inl (Or.inl h)
      · exact Or.inl (Or.inr (Or.inl h.symm))
      · exact Or.inr (Or.inl h)
      · exact Or.inl (Or.inr (Or.inr h.symm))
      · exact Or.inr (Or.inr h)

/-- C20. `IsInPath(p)` is true exactly when the search-path list has an element
equal to `p` as a string.  Hence, after any sequence of calls made from the
initial state (empty list), `IsInPath(p)` is true exactly when one of those
calls was `AppendPath(p)` or `PrependPath(p)` with that very string.
`IsInPath` only returns a value: as a call it changes neither the members nor
the world. -/
theorem is_in_path_is_exact_membership {σ : Type} (u : Helpers) (p : String)
    (rm : ResourceManager σ) (w : World σ) (ops : List (Op σ)) :
    (IsInPath p rm = true ↔ p ∈ rm.paths)
    ∧ (IsInPath p (run u ops ⟨ResourceManager.init σ, w⟩).rm = true
        ↔ (Op.AppendPath p ∈ ops ∨ Op.PrependPath p ∈ ops))
    ∧ step u (Op.IsInPath p) ⟨rm, w⟩ = ⟨rm, w⟩ := by
  refine ⟨isInPathLoop_iff p rm.paths, ?_, rfl⟩
  unfold IsInPath
  rw [isInPathLoop_iff, mem_run_paths]
  simp [ResourceManager.init]

theorem is_in_path_is_exact_membership_witness :
    IsInPath "a/" sampleManager = true
    ∧ IsInPath "a" sampleManager = false
    ∧ IsInPath "A/" sampleManager = false
    ∧ (IsInPath "z/" (run sampleHelpers sampleCalls
        ⟨ResourceManager.init Nat, sampleWorld []⟩).rm = true) :=
  ⟨(is_in_path_is_exact_membership sampleHelpers "a/" sampleManager (sampleWorld []) []).1.mpr
      (by decide),
    by decide, by decide,
    (is_in_path_is_exact_membership sampleHelpers "z/" sampleManager (sampleWorld [])
      sampleCalls).2.1.mpr (Or.inr (by simp [sampleCalls]))⟩

/-! ## Residency implies support -/

theorem Map.find_insert_some {V : Type} {key k : String} {val v : V} {m : Map V}
    (h : Map.find k (Map.insert key val m) = some v) :
    (key = k ∧ val = v) ∨ Map.find k m = some v := by
  rw [Map.find_insert] at h
  by_cases hk : key = k
  · rw [if_pos hk] at h
    exact Or.inl ⟨hk, Option.some.inj h⟩
  · rw [if_neg hk] at h
    exact Or.inr h

theorem selectedPlugin_accepts {σ : Type} (u : Helpers) (k : Kind) (f : String)
    (rm : ResourceManager σ) (i : Nat) (P : IResourcePlugin σ)
    (hsel : selectedPlugin u k f rm = some (i, P)) :
    P ∈ pluginsOf k rm ∧ P.AcceptsExtension (lowerExt u f) = true := by
  obtain ⟨pre, post, hsplit, _, _, hP⟩ :=
    scanPlugins_some k (lowerExt u f) (pluginsOf k rm) 0 i P hsel
  exact ⟨by rw [hsplit]; simp, hP⟩

theorem CreateK_keeps_supported {σ : Type} (u : Helpers) (k : Kind) (f : String)
    (rm : ResourceManager σ) (w : World σ) (hs : Supported u rm) :
    Supported u (CreateK u k f rm w).rm := by
  intro k1 g h hres
  rw [CreateK_pluginsOf]
  cases hfind : Map.find f (cacheOf k rm) with
  | some h0 =>
    rw [CreateK_hit u w hfind] at hres
    exact hs k1 g h hres
  | none =>
    cases hsel : selectedPlugin u k f rm with
    | none =>
      rw [CreateK_unsupported u w hfind hsel] at hres
      exact hs k1 g h hres
    | some ip =>
      obtain ⟨i, P⟩ := ip
      cases hc : (P.CreateResource (resolvedPath f rm w.files) w.pluginState).1 with
      | error e =>
        rw [CreateK_failed u w hfind hsel hc] at hres
        rw [cacheOf_afterResolve] at hres
        exact hs k1 g h hres
      | ok h1 =>
        rw [CreateK_loaded u w hfind hsel hc] at hres
        by_cases hk : k1 = k
        · subst hk
          rw [cacheOf_setCache] at hres
          rcases Map.find_insert_some hres with ⟨hfg, _⟩ | hold
          · subst hfg
            obtain ⟨hmem, hacc⟩ := selectedPlugin_accepts u k1 f rm i P hsel
            exact ⟨P, hmem, hacc⟩
          · exact hs k1 g h hold
        · rw [cacheOf_setCache_of_ne hk, cacheOf_afterResolve] at hres
          exact hs k1 g h hres

theorem Supported_of_same {σ : Type} (u : Helpers) (rm rm1 : ResourceManager σ)
    (hs : Supported u rm) (hc : ∀ k, cacheOf k rm1 = cacheOf k rm)
    (hp : ∀ k, ∀ p ∈ pluginsOf k rm, p ∈ pluginsOf k rm1) : Supported u rm1 := by
  intro k g h hres
  rw [hc k] at hres
  obtain ⟨p, hmem, hacc⟩ := hs k g h hres
  exact ⟨p, hp k p hmem, hacc⟩

theorem step_keeps_supported {σ : Type} (u : Helpers) (op : Op σ) (c : Config σ)
    (hs : Supported u c.rm) : Supported u (step u op c).rm := by
  cases op with
  | CreateTexture f => exact CreateK_keeps_supported u Kind.Texture f c.rm c.world hs
  | CreateModel f => exact CreateK_keeps_supported u Kind.Model f c.rm c.world hs
  | CreateShader f => exact CreateK_keeps_supported u Kind.Shader f c.rm c.world hs
  | Shutdown =>
    intro k g h hres
    cases k <;> simp [step, Shutdown, cacheOf, Map.find] at hres
  | AddTexturePlugin p =>
    apply Supported_of_same u c.rm _ hs
    · intro k
      cases k <;> rfl
    · intro k q hq
      cases k <;> simp_all [step, AddTexturePlugin, pluginsOf]
  | AddModelPlugin p =>
    apply Supported_of_same u c.rm _ hs
    · intro k
      cases k <;> rfl
    · intro k q hq
      cases k <;> simp_all [step, AddModelPlugin, pluginsOf]
  | AddShaderPlugin p =>
    apply Supported_of_same u c.rm _ hs
    · intro k
      cases k <;> rfl
    · intro k q hq
      cases k <;> simp_all [step, AddShaderPlugin, pluginsOf]
  | FindFileInPath f =>
    apply Supported_of_same u c.rm _ hs
    · intro k
      simp [step, Ret.config, FindFileInPath_rm]
    · intro k q hq
      simpa [step, Ret.config, FindFileInPath_rm] using hq
  | CreateScript l =>
    have hrm : (CreateScript l c.rm c.world).rm = c.rm := by
      unfold CreateScript
      split <;> rfl
    simpa [step, Ret.config, hrm] using hs
  | AppendPath d =>
    apply Supported_of_same u c.rm _ hs
    · intro k
      cases k <;> rfl
    · intro k q hq
      cases k <;> exact hq
  | PrependPath d =>
    apply Supported_of_same u c.rm _ hs
    · intro k
      cases k <;> rfl
    · intro k q hq
      cases k <;> exact hq
  | AddScriptPlugin p =>
    apply Supported_of_same u c.rm _ hs
    · intro k
      cases k <;> rfl
    · intro k q hq
      cases k <;> exact hq
  | AddScriptModule m =>
    apply Supported_of_same u c.rm _ hs
    · intro k
      cases k <;> rfl
    · intro k q hq
      cases k <;> exact hq
  | _ => exact hs

theorem run_keeps_supported {σ : Type} (u : Helpers) (ops : List (Op σ)) (c : Config σ)
    (hs : Supported u c.rm) : Supported u (run u ops c).rm := by
  induction ops generalizing c with
  | nil => exact hs
  | cons op ops ih => exact ih (step u op c) (step_keeps_supported u op c hs)

/-- C25. In every state reached from the initial, empty state by any sequence
of calls (plug-ins being values whose acceptance test is a pure function), for
each kind `K` every name resident in the `K` cache has a lowercase extension
accepted by some plug-in in the `K` plug-in list of that state.  Hence no
reachable state has a resident `K` resource and an empty `K` plug-in list. -/
theorem residency_implies_support {σ : Type} (u : Helpers) (ops : List (Op σ)) (w : World σ) :
    (∀ (k : Kind) (f : String) (h : Handle),
      Map.find f (cacheOf k (run u ops ⟨ResourceManager.init σ, w⟩).rm) = some h →
      ∃ p ∈ pluginsOf k (run u ops ⟨ResourceManager.init σ, w⟩).rm,
        p.AcceptsExtension (u.ToLower (u.Extension f)) = true)
    ∧ (∀ (k : Kind) (f : String) (h : Handle),
        Map.find f (cacheOf k (run u ops ⟨ResourceManager.init σ, w⟩).rm) = some h →
        pluginsOf k (run u ops ⟨ResourceManager.init σ, w⟩).rm ≠ []) := by
  have hinit : Supported u (ResourceManager.init σ) := by
    intro k f h hres
    cases k <;> simp [ResourceManager.init, cacheOf, Map.find] at hres
  have hs := run_keeps_supported u ops ⟨ResourceManager.init σ, w⟩ hinit
  refine ⟨hs, ?_⟩
  intro k f h hres hnil
  obtain ⟨p, hmem, _⟩ := hs k f h hres
  rw [hnil] at hmem
  cases hmem

theorem residency_implies_support_witness :
    Map.find "x.TEX" (cacheOf Kind.Texture
        (run sampleHelpers sampleSession ⟨ResourceManager.init Nat, sampleWorld []⟩).rm)
      = some 100
    ∧ (∃ p ∈ pluginsOf Kind.Texture
          (run sampleHelpers sampleSession ⟨ResourceManager.init Nat, sampleWorld []⟩).rm,
        p.AcceptsExtension (sampleHelpers.ToLower (sampleHelpers.Extension "x.TEX")) = true)
    ∧ pluginsOf Kind.Texture
        (run sampleHelpers sampleSession ⟨ResourceManager.init Nat, sampleWorld []⟩).rm ≠ [] :=
  ⟨by decide,
    (residency_implies_support sampleHelpers sampleSession (sampleWorld [])).1
      Kind.Texture "x.TEX" 100 (by decide),
    (residency_implies_support sampleHelpers sampleSession (sampleWorld [])).2
      Kind.Texture "x.TEX" 100 (by decide)⟩

end Resources

namespace Math

/-! ## Loops -/

theorem forLoop_of_le {σ : Type} (lo hi : Nat) (body : Nat → σ → σ) (s : σ) (h : hi ≤ lo) :
    forLoop lo hi body s = s := by
  simp [forLoop, Nat.sub_eq_zero_of_le h]

/-- One more iteration runs the body once more, on the last index. -/
theorem forLoop_succ {σ : Type} (lo hi : Nat) (body : Nat → σ → σ) (s : σ) (h : lo ≤ hi) :
    forLoop lo (hi + 1) body s = body hi (forLoop lo hi body s) := by
  unfold forLoop
  have h1 : hi + 1 - lo = (hi - lo) + 1 := by omega
  rw [h1, List.range'_concat, List.foldl_append]
  simp only [List.foldl_cons, List.foldl_nil, Nat.one_mul]
  have h2 : lo + (hi - lo) = hi := by omega
  rw [h2]

/-- A loop whose body never throws is the plain loop. -/
theorem forLoopE_ok {σ ε : Type} (lo hi : Nat) (body : Nat → σ → Except ε σ)
    (f : Nat → σ → σ) (s : σ)
    (h : ∀ i, lo ≤ i → i < hi → ∀ t, body i t = Except.ok (f i t)) :
    forLoopE lo hi body s = Except.ok (forLoop lo hi f s) := by
  unfold forLoopE forLoop
  have hl : ∀ (l : List Nat) (t : σ), (∀ i ∈ l, lo ≤ i ∧ i < hi) →
      l.foldlM (fun acc i => body i acc) t = Except.ok (l.foldl (fun acc i => f i acc) t) := by
    intro l
    induction l with
    | nil =>
      intro t _
      rfl
    | cons a l ih =>
      intro t hmem
      have ha := hmem a (List.mem_cons_self _ _)
      rw [List.foldlM_cons, h a ha.1 ha.2 t]
      exact ih (f a t) (fun i hi => hmem i (List.mem_cons_of_mem _ hi))
  apply hl
  intro i hi
  have := List.mem_range'_1.mp hi
  omega

/-! ## Element access -/

theorem Matrix.ext {M N : Nat} {T : Type} {a b : Matrix M N T}
    (h : ∀ i j, a.elm i j = b.elm i j) : a = b := by
  cases a
  cases b
  congr
  funext i j
  exact h i j

theorem Matrix.get_eq {M N : Nat} {T : Type} [Zero T] (m : Matrix M N T) (i : Fin M)
    (j : Fin N) : m.get i.val j.val = m.elm i j := by
  simp [Matrix.get, i.isLt, j.isLt]

theorem Matrix.set_elm {M N : Nat} {T : Type} (m : Matrix M N T) (i j : Nat) (v : T)
    (a : Fin M) (b : Fin N) :
    (m.set i j v).elm a b = if a.val = i ∧ b.val = j then v else m.elm a b := rfl

/-- A row filled by a loop of assignments. -/
theorem fill_row {M N : Nat} {T : Type} (g : Nat → T) (i c : Nat) (m0 : Matrix M N T)
    (a : Fin M) (b : Fin N) :
    (forLoop 0 c (fun j m => m.set i j (g j)) m0).elm a b
      = if a.val = i ∧ b.val < c then g b.val else m0.elm a b := by
  induction c with
  | zero => simp [forLoop_of_le]
  | succ c ih =>
    rw [forLoop_succ 0 c _ _ (Nat.zero_le c), Matrix.set_elm, ih]
    by_cases h1 : a.val = i
    · by_cases h2 : b.val = c
      · simp [h1, h2]
      · have h3 : b.val < c + 1 ↔ b.val < c := by omega
        simp [h1, h2, h3]
    · simp [h1]

/-- A block filled by two nested loops of assignments. -/
theorem fill_block {M N : Nat} {T : Type} (g : Nat → Nat → T) (r c : Nat) (m0 : Matrix M N T)
    (a : Fin M) (b : Fin N) :
    (forLoop 0 r (fun i m => forLoop 0 c (fun j m => m.set i j (g i j)) m) m0).elm a b
      = if a.val < r ∧ b.val < c then g a.val b.val else m0.elm a b := by
  induction r with
  | zero => simp [forLoop_of_le]
  | succ r ih =>
    rw [forLoop_succ 0 r _ _ (Nat.zero_le r), fill_row (g r) r c, ih]
    by_cases h1 : a.val = r
    · by_cases h2 : b.val < c
      · simp [h1, h2]
      · simp [h1, h2]
    · have h3 : a.val < r + 1 ↔ a.val < r := by omega
      simp [h1, h3]

/-- The elements after the default constructor. -/
theorem Matrix.ctor_elm {M N : Nat} {T : Type} [Zero T] [One T] (raw : Matrix M N T)
    (i : Fin M) (j : Fin N) :
    (Matrix.ctor raw).elm i j = if i.val = j.val then 1 else 0 := by
  unfold Matrix.ctor
  rw [fill_block (fun i j => if i = j then (1 : T) else 0)]
  simp [i.isLt, j.isLt]

/-! ## `operator*` -/

/-- The accumulation loop `s = 0; for t: s += f(t)` computes the sum. -/
theorem forLoop_sum {T : Type} [Semiring T] (f : Nat → T) (n : Nat) :
    forLoop 0 n (fun t s => s + f t) 0 = ∑ t in Finset.range n, f t := by
  induction n with
  | zero => simp [forLoop_of_le]
  | succ n ih => rw [forLoop_succ 0 n _ _ (Nat.zero_le n), ih, Finset.sum_range_succ]

theorem Matrix.mul_elm {M N : Nat} {T : Type} [Semiring T] (raw : Matrix M M T)
    (a : Matrix M N T) (m : Matrix N M T) (i j : Fin M) :
    (Matrix.mul raw a m).elm i j = ∑ t : Fin N, a.elm i t * m.elm t j := by
  unfold Matrix.mul
  rw [fill_block (fun i j => forLoop 0 N (fun t s => s + a.get i t * m.get t j) 0)]
  simp only [i.isLt, j.isLt, and_self, if_true]
  rw [forLoop_sum, Finset.sum_range]
  apply Finset.sum_congr rfl
  intro t _
  rw [Matrix.get_eq, Matrix.get_eq]

theorem Matrix.ctor2x2_rows {T : Type} (raw : Matrix 2 2 T) (a b c d : T) :
    (Matrix.ctor2x2 raw a b c d).rows = [[a, b], [c, d]] := by
  simp [Matrix.rows, List.finRange, Matrix.ctor2x2, Matrix.set_elm]

/-- C21. Over exact integers (and over any semiring), the product `r = a * m`
of an `M`-by-`N` matrix `a` and an `N`-by-`M` matrix `m` is the `M`-by-`M`
matrix with `r(i,j)` the sum over `t` in `[0, N)` of `a(i,t) * m(t,j)`, for all
`i`, `j` in `[0, M)`; for instance `[(1,2),(3,4)] * [(1,2),(3,4)]` is
`[(7,10),(15,22)]`. -/
theorem product_entry_is_row_times_column {M N : Nat} (raw : Matrix M M Int)
    (a : Matrix M N Int) (m : Matrix N M Int) :
    (∀ i j : Fin M, (Matrix.mul raw a m).elm i j = ∑ t : Fin N, a.elm i t * m.elm t j)
    ∧ (∀ (T : Type) [Semiring T] (rawT : Matrix M M T) (aT : Matrix M N T) (mT : Matrix N M T)
        (i j : Fin M),
        (Matrix.mul rawT aT mT).elm i j = ∑ t : Fin N, aT.elm i t * mT.elm t j)
    ∧ (∀ r0 r1 r2 : Matrix 2 2 Int,
        (Matrix.ctor2x2 r1 1 2 3 4).rows = [[1, 2], [3, 4]]
        ∧ (Matrix.mul r0 (Matrix.ctor2x2 r1 1 2 3 4) (Matrix.ctor2x2 r2 1 2 3 4)).rows
          = [[7, 10], [15, 22]]) := by
  refine ⟨Matrix.mul_elm raw a m, ?_, ?_⟩
  · intro T _ rawT aT mT
    exact Matrix.mul_elm rawT aT mT
  · intro r0 r1 r2
    refine ⟨Matrix.ctor2x2_rows r1 1 2 3 4, ?_⟩
    simp [Matrix.rows, List.finRange, Matrix.mul_elm, Fin.sum_univ_two, Matrix.ctor2x2,
      Matrix.set_elm]

/-! ## The default constructor -/

/-- C22, as amended.  For all dimensions `M`, `N` the default constructor
yields the matrix with 1 where the row index equals the column index and 0
elsewhere, whatever the array held before.  When `M > N` every row from index
`N` on is made only of zeros, so there is at least one such row.  When `M < N`
it is the columns from index `M` on that are made only of zeros, and (one and
zero being different) every row holds a one, so no row is made only of
zeros. -/
theorem default_matrix_is_identity_pattern {M N : Nat} {T : Type} [Zero T] [One T]
    (raw : Matrix M N T) :
    (∀ (i : Fin M) (j : Fin N), (Matrix.ctor raw).elm i j = if i.val = j.val then 1 else 0)
    ∧ (N < M → ∀ i : Fin M, N ≤ i.val → ∀ j : Fin N, (Matrix.ctor raw).elm i j = 0)
    ∧ (N < M → ∃ i : Fin M, ∀ j : Fin N, (Matrix.ctor raw).elm i j = 0)
    ∧ (M < N → ∀ j : Fin N, M ≤ j.val → ∀ i : Fin M, (Matrix.ctor raw).elm i j = 0)
    ∧ (M < N → (1 : T) ≠ 0 → ∀ i : Fin M, ∃ j : Fin N, (Matrix.ctor raw).elm i j ≠ 0) := by
  refine ⟨Matrix.ctor_elm raw, ?_, ?_, ?_, ?_⟩
  · intro _ i hi j
    rw [Matrix.ctor_elm, if_neg]
    have := j.isLt
    omega
  · intro h
    refine ⟨⟨N, h⟩, fun j => ?_⟩
    rw [Matrix.ctor_elm, if_neg]
    have := j.isLt
    simp only []
    omega
  · intro _ j hj i
    rw [Matrix.ctor_elm, if_neg]
    have := i.isLt
    omega
  · intro h h10 i
    refine ⟨⟨i.val, by have := i.isLt; omega⟩, ?_⟩
    rw [Matrix.ctor_elm, if_pos rfl]
    exact h10

theorem default_matrix_is_identity_pattern_witness :
    (∃ i : Fin 3, ∀ j : Fin 2, (Matrix.ctor (sampleRaw 3 2)).elm i j = 0)
    ∧ (∀ i : Fin 2, ∃ j : Fin 3, (Matrix.ctor (sampleRaw 2 3)).elm i j ≠ 0)
    ∧ (∀ i : Fin 2, (Matrix.ctor (sampleRaw 2 3)).elm i 2 = 0) :=
  ⟨(default_matrix_is_identity_pattern (sampleRaw 3 2)).2.2.1 (by decide),
    (default_matrix_is_identity_pattern (sampleRaw 2 3)).2.2.2.2 (by decide) (by decide),
    fun i => (default_matrix_is_identity_pattern (sampleRaw 2 3)).2.2.2.1 (by decide) 2
      (by decide) i⟩

/-- C22, as stated, fails: the default-constructed 2-by-3 matrix is
`[(1,0,0),(0,1,0)]`; its dimension is not square, yet it has no row made only
of zeros. -/
theorem default_matrix_zero_row_counterexample :
    (Matrix.ctor (sampleRaw 2 3)).rows = [[1, 0, 0], [0, 1, 0]]
    ∧ ¬ ∃ i : Fin 2, ∀ j : Fin 3, (Matrix.ctor (sampleRaw 2 3)).elm i j = 0 := by
  refine ⟨by decide, ?_⟩
  rintro ⟨i, hi⟩
  have h := hi ⟨i.val, by have := i.isLt; omega⟩
  rw [Matrix.ctor_elm, if_pos rfl] at h
  exact absurd h (by decide)

/-! ## `GetExpanded` -/

/-- Checked assignment inside the bounds is the unchecked assignment. -/
theorem Matrix.assignAt_ok {M N : Nat} {T : Type} (m : Matrix M N T) (i j : Nat) (v : T)
    (hi : i < M) (hj : j < N) :
    m.assignAt (i : Int) (j : Int) v = Except.ok (m.set i j v) := by
  unfold Matrix.assignAt
  have h1 : ¬ ((i : Int) < 0 ∨ (i : Int) ≥ M) := by omega
  have h2 : ¬ ((j : Int) < 0 ∨ (j : Int) ≥ N) := by omega
  rw [if_neg h1, if_neg h2]
  simp

/-- The checked loops of `GetExpanded` never throw: they are the unchecked
fill of the upper-left block. -/
theorem Matrix.GetExpanded_eq {M N : Nat} {T : Type} [Zero T] [One T]
    (raw : Matrix (M + 1) (N + 1) T) (self : Matrix M N T) :
    Matrix.GetExpanded raw self
      = Except.ok (forLoop 0 M (fun i m =>
          forLoop 0 N (fun j m => m.set i j (self.get i j)) m) (Matrix.ctor raw)) := by
  unfold Matrix.GetExpanded
  apply forLoopE_ok
  intro i _ hi t
  apply forLoopE_ok
  intro j _ hj t1
  exact Matrix.assignAt_ok t1 i j _ (by omega) (by omega)

theorem Matrix.GetExpanded_elm {M N : Nat} {T : Type} [Zero T] [One T]
    (raw : Matrix (M + 1) (N + 1) T) (self : Matrix M N T) (a : Fin (M + 1)) (b : Fin (N + 1)) :
    (forLoop 0 M (fun i m =>
        forLoop 0 N (fun j m => m.set i j (self.get i j)) m) (Matrix.ctor raw)).elm a b
      = if a.val < M ∧ b.val < N then self.get a.val b.val
        else if a.val = b.val then 1 else 0 := by
  rw [fill_block (fun i j => self.get i j), Matrix.ctor_elm]

/-- C23. For every `M`-by-`N` matrix `m`, `m.GetExpanded()` returns, without
raising an index error, the `(M+1)`-by-`(N+1)` matrix `e` with
`e(i,j) = m(i,j)` for all `i < M`, `j < N`, whose added last row and last
column hold zeros except for a one where the row index equals the column
index (the corner entry when `M = N`); for instance `[(1,2),(3,4)]` expands to
`[(1,2,0),(3,4,0),(0,0,1)]`. -/
theorem expanded_matrix_keeps_block_and_adds_unit {M N : Nat} {T : Type} [Zero T] [One T]
    (raw : Matrix (M + 1) (N + 1) T) (m : Matrix M N T) :
    (∃ e, Matrix.GetExpanded raw m = Except.ok e
      ∧ (∀ (i : Fin M) (j : Fin N), e.elm i.castSucc j.castSucc = m.elm i j)
      ∧ (∀ (i : Fin (M + 1)) (j : Fin (N + 1)), i.val = M ∨ j.val = N →
          e.elm i j = if i.val = j.val then 1 else 0)
      ∧ (M = N → e.elm (Fin.last M) (Fin.last N) = 1))
    ∧ (∀ (r3 : Matrix 3 3 Int) (r2 : Matrix 2 2 Int),
        (Matrix.GetExpanded r3 (Matrix.ctor2x2 r2 1 2 3 4)).map Matrix.rows
          = Except.ok [[1, 2, 0], [3, 4, 0], [0, 0, 1]]) := by
  constructor
  · refine ⟨_, Matrix.GetExpanded_eq raw m, ?_, ?_, ?_⟩
    · intro i j
      rw [Matrix.GetExpanded_elm]
      have hi := i.isLt
      have hj := j.isLt
      simp only [Fin.coe_castSucc, hi, hj, and_self, if_true]
      exact Matrix.get_eq m i j
    · intro i j hij
      rw [Matrix.GetExpanded_elm, if_neg]
      omega
    · intro hMN
      rw [Matrix.GetExpanded_elm]
      simp [hMN]
  · intro r3 r2
    rw [Matrix.GetExpanded_eq]
    simp only [Except.map, Matrix.rows, Matrix.GetExpanded_elm]
    simp [List.finRange, Matrix.get, Matrix.ctor2x2, Matrix.set_elm]

theorem expanded_matrix_keeps_block_and_adds_unit_witness :
    ∃ e, Matrix.GetExpanded (sampleRaw 3 3) (Matrix.ctor2x2 (sampleRaw 2 2) 1 2 3 4)
        = Except.ok e
      ∧ e.elm (Fin.last 2) (Fin.last 2) = 1 ∧ e.elm 2 0 = 0 ∧ e.elm 1 2 = 0 := by
  obtain ⟨e, h1, _, h3, h4⟩ :=
    (expanded_matrix_keeps_block_and_adds_unit (sampleRaw 3 3)
      (Matrix.ctor2x2 (sampleRaw 2 2) 1 2 3 4)).1
  exact ⟨e, h1, h4 rfl, (h3 2 0 (Or.inl rfl)).trans (by decide),
    (h3 1 2 (Or.inr rfl)).trans (by decide)⟩

/-! ## `Transpose` -/

/-- The inner loop of `Transpose` for row `i`, run up to column `c`: the
elements `(i, b)` and `(b, i)` with `b < c` have changed places. -/
theorem swap_row {N : Nat} {T : Type} [Zero T] (i c : Nat) (hi : i < N) (hc : c ≤ i)
    (m0 : Matrix N N T) (a b : Fin N) :
    (forLoop 0 c (fun j m => (m.set i j (m.get j i)).set j i (m.get i j)) m0).elm a b
      = if (a.val = i ∧ b.val < c) ∨ (b.val = i ∧ a.val < c) then m0.elm b a
        else m0.elm a b := by
  induction c generalizing a b with
  | zero => simp [forLoop_of_le]
  | succ c ih =>
    have hc1 : c ≤ i := by omega
    have hcN : c < N := by omega
    rw [forLoop_succ 0 c _ _ (Nat.zero_le c)]
    simp only [Matrix.set_elm]
    have gic := Matrix.get_eq (forLoop 0 c (fun j m => (m.set i j (m.get j i)).set j i (m.get i j)) m0) ⟨i, hi⟩ ⟨c, hcN⟩
    have gci := Matrix.get_eq (forLoop 0 c (fun j m => (m.set i j (m.get j i)).set j i (m.get i j)) m0) ⟨c, hcN⟩ ⟨i, hi⟩
    rw [gic, gci, ih hc1, ih hc1, ih hc1]
    by_cases h1 : a.val = c ∧ b.val = i
    · obtain ⟨ha, hb⟩ := h1
      have ea : a = ⟨c, hcN⟩ := Fin.ext ha
      have eb : b = ⟨i, hi⟩ := Fin.ext hb
      subst ea
      subst eb
      have n1 : ¬ ((i = i ∧ c < c) ∨ (c = i ∧ i < c)) := by omega
      have p1 : (c = i ∧ i < c + 1) ∨ (i = i ∧ c < c + 1) := by omega
      rw [if_pos ⟨rfl, rfl⟩, if_neg n1, if_pos p1]
    · rw [if_neg h1]
      by_cases h2 : a.val = i ∧ b.val = c
      · obtain ⟨ha, hb⟩ := h2
        have ea : a = ⟨i, hi⟩ := Fin.ext ha
        have eb : b = ⟨c, hcN⟩ := Fin.ext hb
        subst ea
        subst eb
        have n1 : ¬ ((c = i ∧ i < c) ∨ (i = i ∧ c < c)) := by omega
        have p1 : (i = i ∧ c < c + 1) ∨ (c = i ∧ i < c + 1) := by omega
        rw [if_pos ⟨rfl, rfl⟩, if_neg n1, if_pos p1]
      · rw [if_neg h2]
        have hiff : ((a.val = i ∧ b.val < c + 1) ∨ (b.val = i ∧ a.val < c + 1))
            ↔ ((a.val = i ∧ b.val < c) ∨ (b.val = i ∧ a.val < c)) := by omega
        by_cases h3 : (a.val = i ∧ b.val < c) ∨ (b.val = i ∧ a.val < c)
        · rw [if_pos h3, if_pos (hiff.mpr h3)]
        · rw [if_neg h3, if_neg (fun h => h3 (hiff.mp h))]

/-- The outer loop of `Transpose`, run up to row `k`: the leading `k`-by-`k`
block is transposed, the rest untouched. -/
theorem transpose_block {N : Nat} {T : Type} [Zero T] (k : Nat) (hk : k ≤ N)
    (m0 : Matrix N N T) (a b : Fin N) :
    (forLoop 1 k (fun i m =>
        forLoop 0 i (fun j m => (m.set i j (m.get j i)).set j i (m.get i j)) m) m0).elm a b
      = if a.val < k ∧ b.val < k then m0.elm b a else m0.elm a b := by
  induction k generalizing a b with
  | zero => simp [forLoop_of_le]
  | succ k ih =>
    by_cases hk0 : k = 0
    · subst hk0
      rw [forLoop_of_le 1 1 _ _ (Nat.le_refl 1)]
      by_cases h : a.val < 0 + 1 ∧ b.val < 0 + 1
      · have e : a = b := Fin.ext (by omega)
        rw [if_pos h, e]
      · rw [if_neg h]
    · have hk1 : 1 ≤ k := by omega
      rw [forLoop_succ 1 k _ _ hk1, swap_row k k (by omega) (Nat.le_refl k), ih (by omega),
        ih (by omega)]
      by_cases h1 : (a.val = k ∧ b.val < k) ∨ (b.val = k ∧ a.val < k)
      · rw [if_pos h1, if_neg (by omega), if_pos (by omega)]
      · rw [if_neg h1]
        by_cases h2 : a.val < k ∧ b.val < k
        · rw [if_pos h2, if_pos (by omega)]
        · rw [if_neg h2]
          by_cases h3 : a.val < k + 1 ∧ b.val < k + 1
          · have e : a = b := Fin.ext (by omega)
            rw [if_pos h3, e]
          · rw [if_neg h3]

theorem Matrix.Transpose_elm {N : Nat} {T : Type} [Zero T] (m : Matrix N N T) (a b : Fin N) :
    (Matrix.Transpose m).elm a b = m.elm b a := by
  exact (transpose_block N (Nat.le_refl N) m a b).trans (if_pos ⟨a.isLt, b.isLt⟩)

theorem Matrix.get_diag_Transpose {N : Nat} {T : Type} [Zero T] (m : Matrix N N T) (i : Nat) :
    (Matrix.Transpose m).get i i = m.get i i := by
  unfold Matrix.get
  by_cases h : i < N ∧ i < N
  · rw [dif_pos h, dif_pos h, Matrix.Transpose_elm]
  · rw [dif_neg h, dif_neg h]

/-- C24. For every square `N`-by-`N` matrix, after `Transpose()` the element at
`(i,j)` is the element that was at `(j,i)` before the call, for all `i`, `j` in
`[0, N)`.  Hence `Transpose()` applied twice gives back the original matrix,
and `Trace()` is the same before and after. -/
theorem transpose_swaps_indices {N : Nat} {T : Type} [Semiring T] (m : Matrix N N T) :
    (∀ i j : Fin N, (Matrix.Transpose m).elm i j = m.elm j i)
    ∧ Matrix.Transpose (Matrix.Transpose m) = m
    ∧ Matrix.Trace (Matrix.Transpose m) = Matrix.Trace m := by
  refine ⟨Matrix.Transpose_elm m, ?_, ?_⟩
  · apply Matrix.ext
    intro i j
    rw [Matrix.Transpose_elm, Matrix.Transpose_elm]
  · unfold Matrix.Trace
    simp only [Matrix.get_diag_Transpose]

end Math
end OpenEngine
